import Mathlib

/-!
Verification of the qhacks2026 ingestion / story pipeline.

Shallow embedding of the core pipeline code:
  * `backend/app/services/agents/story_agent.py` (story writer, verifier),
  * `backend/app/services/agents/thread_agent.py`, `meeting_agent.py`,
  * `backend/app/jobs/ingest_snapshot.py` (entity extraction, organization
    extraction, artifact store, orchestrator failure handling),
  * `backend/app/services/gmail.py` (`is_automated_sender`).

Untrusted LLM responses are modelled as JSON trees (`JVal`); the LLM call
itself is an oracle parameter (`Except Unit JVal`): `.error` models the call
(or JSON parsing, after the one retry) raising, `.ok v` models a successful
call whose parsed JSON object is `v`.  JSON numbers are modelled as integers
(no float appears in any property under study).
-/

set_option maxHeartbeats 1000000

/-- A JSON value, the shape of every parsed LLM response
(`parse_json_response` guarantees the top level is an object).
Object key lists are assumed duplicate-free, as produced by `json.loads`. -/
inductive JVal where
  | null
  | bool (b : Bool)
  | num (n : Int)
  | str (s : String)
  | arr (xs : List JVal)
  | obj (fs : List (String × JVal))

/-- Python `d.get(k)` on a dict (first matching key; keys are unique). -/
def jGet (v : JVal) (k : String) : Option JVal :=
  match v with
  | .obj fs => fs.lookup k
  | _ => none

/-- Python `d.get(k, default)`. -/
def jGetD (v : JVal) (k : String) (d : JVal) : JVal :=
  (jGet v k).getD d

/-- Python truthiness of a JSON value. -/
def jTruthy : JVal → Bool
  | .null => false
  | .bool b => b
  | .num n => n != 0
  | .str s => s != ""
  | .arr xs => !xs.isEmpty
  | .obj fs => !fs.isEmpty

/-- The idiom `data.get(k, []) if isinstance(data.get(k), list) else []`. -/
def jArrField (v : JVal) (k : String) : List JVal :=
  match jGet v k with
  | some (.arr xs) => xs
  | _ => []

/-- True iff the value is a JSON object (Python `isinstance(x, dict)`). -/
def jIsObj : JVal → Bool
  | .obj _ => true
  | _ => false

/-! ## Date normalization (`story_agent._normalize_date`)

`_normalize_date` first matches the regex `^\d{4}-\d{2}-\d{2}$` (returning the
string unchanged), then tries the eight `datetime.strptime` formats in order.
We embed `strptime` for exactly those formats: `%Y` is four digits, `%m`/`%d`
are one or two digits with the ranges of CPython's `_strptime` regexes, `%B`
and `%b` are case-insensitive month names, a space in the format matches one
or more whitespace characters, and the parsed triple is validated against the
calendar (`datetime` raises `ValueError`, caught by the `continue`).
The year is rendered zero-padded to four digits. -/

/-- Decimal digit character for `n % 10`. -/
def digitChar10 (n : Nat) : Char := Char.ofNat (48 + n % 10)

/-- Decimal rendering of a natural number (`str(n)`), fuel-bounded so the
kernel can evaluate it. -/
def natToStrGo : Nat → Nat → List Char
  | 0, _ => []
  | fuel + 1, n => if n < 10 then [digitChar10 n] else natToStrGo fuel (n / 10) ++ [digitChar10 n]

def natToStr (n : Nat) : String := String.mk (natToStrGo (n + 1) n)

/-- Decimal rendering of an integer (`str(i)`). -/
def intToStr : Int → String
  | .ofNat n => natToStr n
  | .negSucc n => "-" ++ natToStr (n + 1)

/-- `YYYY-MM-DD` rendering of a parsed date (`strftime("%Y-%m-%d")`). -/
def mkDateStr (y m d : Nat) : String :=
  ⟨[digitChar10 (y / 1000), digitChar10 (y / 100), digitChar10 (y / 10), digitChar10 y, '-',
    digitChar10 (m / 10), digitChar10 m, '-',
    digitChar10 (d / 10), digitChar10 d]⟩

/-- The regex `^\d{4}-\d{2}-\d{2}$` on the character list of a string. -/
def isoShape : List Char → Bool
  | [a, b, c, d, s1, e, f, s2, g, h] =>
    a.isDigit && b.isDigit && c.isDigit && d.isDigit && s1 == '-' &&
    e.isDigit && f.isDigit && s2 == '-' && g.isDigit && h.isDigit
  | _ => false

/-- One token of a `strptime` format string. -/
inductive FTok where
  | y4            -- %Y (four digits)
  | mon           -- %m (1-2 digits, 1..12)
  | day           -- %d (1-2 digits, 1..31)
  | monFull       -- %B (full month name, case-insensitive)
  | monAbb        -- %b (abbreviated month name, case-insensitive)
  | lit (c : Char)
  | ws            -- whitespace in the format: matches one or more whitespace chars

/-- Partially parsed date fields. -/
structure PDate where
  y : Option Nat := none
  m : Option Nat := none
  d : Option Nat := none

def digitVal (c : Char) : Nat := c.toNat - 48

/-- Four mandatory digits (`%Y` compiles to `\d\d\d\d`). -/
def takeYear4 : List Char → List (Nat × List Char)
  | a :: b :: c :: d :: rest =>
    if a.isDigit && b.isDigit && c.isDigit && d.isDigit then
      [(1000 * digitVal a + 100 * digitVal b + 10 * digitVal c + digitVal d, rest)]
    else []
  | _ => []

/-- One or two digits whose value passes `valid2` (two digits) or `valid1`
(one digit); the two-digit alternative is tried first, matching the
alternation order of the `_strptime` regexes. -/
def take2or1 (valid2 valid1 : Nat → Bool) : List Char → List (Nat × List Char)
  | c1 :: c2 :: rest =>
    (if c1.isDigit && c2.isDigit && valid2 (10 * digitVal c1 + digitVal c2) then
      [(10 * digitVal c1 + digitVal c2, rest)] else []) ++
    (if c1.isDigit && valid1 (digitVal c1) then [(digitVal c1, c2 :: rest)] else [])
  | [c1] => if c1.isDigit && valid1 (digitVal c1) then [(digitVal c1, [])] else []
  | [] => []

/-- Month names, full and abbreviated, lower case. -/
def monthNamesFull : List String :=
  ["january", "february", "march", "april", "may", "june", "july",
   "august", "september", "october", "november", "december"]

def monthNamesAbb : List String :=
  ["jan", "feb", "mar", "apr", "may", "jun", "jul", "aug", "sep", "oct", "nov", "dec"]

/-- Case-insensitively strip `name` from the front of `cs`. -/
def stripNameCI (name : List Char) (cs : List Char) : Option (List Char) :=
  match name, cs with
  | [], rest => some rest
  | n :: ns, c :: cs' => if c.toLower == n then stripNameCI ns cs' else none
  | _ :: _, [] => none

/-- Match one of `names` (1-based index is the month number). -/
def takeMonthName (names : List String) (cs : List Char) : List (Nat × List Char) :=
  (names.enumFrom 1).foldr
    (fun (p : Nat × String) acc =>
      match stripNameCI p.2.toList cs with
      | some rest => (p.1, rest) :: acc
      | none => acc)
    []

/-- Consume one token, nondeterministically (regex backtracking). -/
def tokAlts (t : FTok) (p : PDate) (cs : List Char) : List (PDate × List Char) :=
  match t with
  | .y4 => (takeYear4 cs).map (fun q => ({ p with y := some q.1 }, q.2))
  | .mon =>
    (take2or1 (fun v => 1 ≤ v && v ≤ 12) (fun v => 1 ≤ v && v ≤ 9) cs).map
      (fun q => ({ p with m := some q.1 }, q.2))
  | .day =>
    (take2or1 (fun v => 1 ≤ v && v ≤ 31) (fun v => 1 ≤ v && v ≤ 9) cs).map
      (fun q => ({ p with d := some q.1 }, q.2))
  | .monFull => (takeMonthName monthNamesFull cs).map (fun q => ({ p with m := some q.1 }, q.2))
  | .monAbb => (takeMonthName monthNamesAbb cs).map (fun q => ({ p with m := some q.1 }, q.2))
  | .lit c =>
    match cs with
    | c' :: rest => if c' == c then [(p, rest)] else []
    | [] => []
  | .ws =>
    match cs with
    | c :: rest => if c.isWhitespace then [(p, rest.dropWhile Char.isWhitespace)] else []
    | [] => []

/-- Run a token list over the input; a parse must consume the whole string
(`_strptime` rejects trailing input). -/
def parseToks : List FTok → PDate → List Char → List PDate
  | [], p, cs => if cs.isEmpty then [p] else []
  | t :: ts, p, cs => (tokAlts t p cs).flatMap (fun q => parseToks ts q.1 q.2)

/-- Leap-year rule used by `datetime`. -/
def isLeap (y : Nat) : Bool := y % 4 == 0 && (y % 100 != 0 || y % 400 == 0)

def daysInMonth (y m : Nat) : Nat :=
  if m == 2 then (if isLeap y then 29 else 28)
  else if m == 4 || m == 6 || m == 9 || m == 11 then 30
  else 31

/-- `datetime(year, month, day)` validation plus `strftime("%Y-%m-%d")`. -/
def mkValidDate : PDate → Option String
  | ⟨some y, some m, some d⟩ =>
    if 1 ≤ y && 1 ≤ d && d ≤ daysInMonth y m then some (mkDateStr y m d) else none
  | _ => none

/-- The eight formats of `_normalize_date`, in order. -/
def strptimeFormats : List (List FTok) :=
  [ [.y4, .lit '-', .mon, .lit '-', .day],            -- %Y-%m-%d
    [.y4, .lit '/', .mon, .lit '/', .day],            -- %Y/%m/%d
    [.mon, .lit '/', .day, .lit '/', .y4],            -- %m/%d/%Y
    [.day, .lit '/', .mon, .lit '/', .y4],            -- %d/%m/%Y
    [.monFull, .ws, .day, .lit ',', .ws, .y4],        -- %B %d, %Y
    [.monAbb, .ws, .day, .lit ',', .ws, .y4],         -- %b %d, %Y
    [.day, .ws, .monFull, .ws, .y4],                  -- %d %B %Y
    [.day, .ws, .monAbb, .ws, .y4] ]                  -- %d %b %Y

/-- `datetime.strptime(s, fmt)` + `strftime`, `None` on `ValueError`. -/
def strptimeOne (toks : List FTok) (cs : List Char) : Option String :=
  match parseToks toks {} cs with
  | p :: _ => mkValidDate p
  | [] => none

/-- Try the formats in order; first success wins. -/
def tryFormats : List (List FTok) → List Char → Option String
  | [], _ => none
  | f :: fs, cs =>
    match strptimeOne f cs with
    | some s => some s
    | none => tryFormats fs cs

/-- Python `str.strip()` (whitespace from both ends). -/
def pyStripChars (cs : List Char) : List Char :=
  (((cs.dropWhile Char.isWhitespace).reverse).dropWhile Char.isWhitespace).reverse

/-- `_normalize_date` on a string argument. -/
def normalizeDateStr (s : String) : Option String :=
  if s.toList.isEmpty then none
  else
    let t := pyStripChars s.toList
    if isoShape t then some (String.mk t) else tryFormats strptimeFormats t

/-- `_normalize_date` (non-string or falsy input returns `None`). -/
def normalizeDate : JVal → Option String
  | .str s => normalizeDateStr s
  | _ => none

/-! ## Story Writer (`story_agent.generate_story`)

The function formats a prompt, calls the LLM, and then post-processes the
parsed JSON.  We embed the post-processing exactly; the prompt build has no
effect on the returned `StoryContent` beyond the truncated evidence list and
is not modelled.  Evidence items are the five-string dicts built by
`generate_entity_story` (`ingest_snapshot.py` line 1087). -/

/-- `MAX_EVIDENCE_IDS_PER_STORY` from `agents/base.py`. -/
def MAX_EVIDENCE_IDS_PER_STORY : Nat := 120

/-- One element of `evidence_list`: a dict with exactly these string fields. -/
structure EvDict where
  id : String
  type : String
  title : String
  date : String
  preview : String
deriving DecidableEq

/-- `allowed_ids = {str(e.get("id", "")) for e in evidence_items if e.get("id")}`
where `evidence_items = evidence_list[:MAX_EVIDENCE_IDS_PER_STORY]`
(membership in this list models membership in the Python set). -/
def allowedIdsOf (evidenceList : List EvDict) : List String :=
  ((evidenceList.take MAX_EVIDENCE_IDS_PER_STORY).map (·.id)).filter (· ≠ "")

/-- Insert-or-replace for an association list (Python dict assignment). -/
def assocSet {α : Type} : List (String × α) → String → α → List (String × α)
  | [], k, v => [(k, v)]
  | (k', v') :: rest, k, v =>
    if k' = k then (k, v) :: rest else (k', v') :: assocSet rest k v

/-- `evidence_map = {str(e.get("id", "")): e for e in evidence_items if e.get("id")}`
(a later item with the same id overwrites an earlier one). -/
def evidenceMapOf (evidenceList : List EvDict) : List (String × EvDict) :=
  ((evidenceList.take MAX_EVIDENCE_IDS_PER_STORY).filter (·.id ≠ "")).foldl
    (fun m e => assocSet m e.id e) []

/-- `_get_date_from_evidence`: first cited evidence item that exists in the
map, has a truthy date, and whose date normalizes. -/
def getDateFromEvidence (evidenceIds : List String) (emap : List (String × EvDict)) :
    Option String :=
  match evidenceIds with
  | [] => none
  | eid :: rest =>
    match emap.lookup eid with
    | some ev =>
      if ev.date ≠ "" then
        match normalizeDateStr ev.date with
        | some d => some d
        | none => getDateFromEvidence rest emap
      else getDateFromEvidence rest emap
    | none => getDateFromEvidence rest emap

/-- Worker for `normalize_ids`: keep string entries that are allowed and not
yet kept (`seen` is the output accumulated so far). -/
def normIdsGo (allowed : List String) (seen : List String) : List JVal → List String
  | [] => []
  | .str s :: rest =>
    if s ∈ allowed ∧ s ∉ seen then s :: normIdsGo allowed (s :: seen) rest
    else normIdsGo allowed seen rest
  | _ :: rest => normIdsGo allowed seen rest

/-- `normalize_ids` from `generate_story`: non-list input gives `[]`;
non-string entries, out-of-set ids and duplicates are dropped. -/
def normalizeIds (allowed : List String) : JVal → List String
  | .arr entries => normIdsGo allowed [] entries
  | _ => []

/-- A timeline dict after the first processing pass: the model's dict together
with the final values of its mutated `evidence_ids` and `date` fields. -/
structure TLOut where
  src : JVal
  evidenceIds : List String
  date : String

/-- A claims-list element after the first pass: non-dict entries are kept
verbatim, dict entries carry their normalized `evidence_ids`. -/
inductive ClaimOut where
  | raw (v : JVal)
  | entry (src : JVal) (evidenceIds : List String)

/-- First-pass processing of one timeline element: `none` when the element is
not a dict, is marked `_invalid` (set when no date resolves, or already truthy
in the model output), and otherwise the surviving entry.  The second component
is this element's contribution to `total_citations` (counted even for entries
later dropped). -/
def processTimelineItem (allowed : List String) (emap : List (String × EvDict))
    (item : JVal) : Option TLOut × Nat :=
  match item with
  | .obj fs =>
    let it := JVal.obj fs
    let ids := normalizeIds allowed (jGetD it "evidence_ids" .null)
    let nd :=
      match normalizeDate (jGetD it "date" (.str "")) with
      | some d => some d
      | none => if ids.isEmpty then none else getDateFromEvidence ids emap
    let invalid := jTruthy (jGetD it "_invalid" .null)
    (match nd with
     | some d => if invalid then none else some ⟨it, ids, d⟩
     | none => none,
     ids.length)
  | _ => (none, 0)

/-- First-pass processing of one claims element, with its citation count. -/
def processClaimItem (allowed : List String) (item : JVal) : ClaimOut × Nat :=
  match item with
  | .obj fs =>
    let it := JVal.obj fs
    let ids := normalizeIds allowed (jGetD it "evidence_ids" .null)
    (.entry it ids, ids.length)
  | v => (.raw v, 0)

/-- The timeline after the first pass and the `_invalid` filter. -/
def phase1Timeline (allowed : List String) (emap : List (String × EvDict))
    (timelineRaw : List JVal) : List TLOut :=
  timelineRaw.filterMap (fun it => (processTimelineItem allowed emap it).1)

/-- The claims list after the first pass. -/
def phase1Claims (allowed : List String) (claimsRaw : List JVal) : List ClaimOut :=
  claimsRaw.map (fun it => (processClaimItem allowed it).1)

/-- `total_citations` accumulated over both passes. -/
def citTotal (allowed : List String) (emap : List (String × EvDict))
    (timelineRaw claimsRaw : List JVal) : Nat :=
  (timelineRaw.map (fun it => (processTimelineItem allowed emap it).2)).sum +
    (claimsRaw.map (fun it => (processClaimItem allowed it).2)).sum

/-- Truncation loop over the (already filtered) timeline: each entry keeps the
prefix `ids[:max(0, remaining)]` of its citations; returns the remaining
budget. -/
def truncTL : Nat → List TLOut → List TLOut × Nat
  | r, [] => ([], r)
  | r, e :: es =>
    let kept := e.evidenceIds.take r
    let (rest, r') := truncTL (r - kept.length) es
    ({ e with evidenceIds := kept } :: rest, r')

/-- Truncation loop over the claims list (non-dict entries are skipped). -/
def truncClaims : Nat → List ClaimOut → List ClaimOut × Nat
  | r, [] => ([], r)
  | r, .raw v :: es =>
    let (rest, r') := truncClaims r es
    (.raw v :: rest, r')
  | r, .entry s ids :: es =>
    let kept := ids.take r
    let (rest, r') := truncClaims (r - kept.length) es
    (.entry s kept :: rest, r')

/-- The returned `StoryContent`.  `title`, `summary` and `themes` are taken
from the model output unchecked (`themes` is list-checked). -/
structure StoryContent where
  title : JVal
  summary : JVal
  themes : JVal
  timeline : List TLOut
  claims : List ClaimOut

/-- Python `x[:4]` as used on `dossier.get("themes", [])` in the fallback
branch (a non-sliceable value there would raise; dossiers produced by
`create_dossier` always carry a list). -/
def pySlice4 : JVal → JVal
  | .arr xs => .arr (xs.take 4)
  | .str s => .str (String.mk (s.toList.take 4))
  | v => v

/-- The success branch of `generate_story` after the LLM call returned the
parsed object `data`. -/
def generateStoryOk (entityName : String) (evidenceList : List EvDict)
    (data : JVal) : StoryContent :=
  let allowed := allowedIdsOf evidenceList
  let emap := evidenceMapOf evidenceList
  let timelineRaw := jArrField data "timeline"
  let claimsRaw := jArrField data "claims"
  let tl1 := phase1Timeline allowed emap timelineRaw
  let cl1 := phase1Claims allowed claimsRaw
  let total := citTotal allowed emap timelineRaw claimsRaw
  let (tlF, clF) :=
    if MAX_EVIDENCE_IDS_PER_STORY < total then
      let (tl2, r) := truncTL MAX_EVIDENCE_IDS_PER_STORY tl1
      let (cl2, _) := truncClaims r cl1
      (tl2, cl2)
    else (tl1, cl1)
  { title := jGetD data "title" (.str ("Your relationship with " ++ entityName))
    summary := jGetD data "summary" (.str "")
    themes := .arr (jArrField data "themes")
    timeline := tlF
    claims := clF }

/-- `generate_story`: the LLM call (and JSON parse) either yields `data` or
raises, in which case the `except` branch returns the minimal fallback story. -/
def generateStory (entityName : String) (dossier : JVal)
    (meetingCount threadCount : Nat) (evidenceList : List EvDict)
    (llmResult : Except Unit JVal) : StoryContent :=
  match llmResult with
  | .ok data => generateStoryOk entityName evidenceList data
  | .error _ =>
    { title := .str ("Your relationship with " ++ entityName)
      summary := .str ("Over the past 90 days, you've had " ++ natToStr meetingCount ++
        " meetings and " ++ natToStr threadCount ++ " email threads with " ++ entityName ++ ".")
      themes := pySlice4 (jGetD dossier "themes" (.arr []))
      timeline := []
      claims := [] }

/-- The citation lists of a story, in truncation order: timeline entries first,
then dict claims. -/
def claimEntryIds : List ClaimOut → List (List String)
  | [] => []
  | .raw _ :: rest => claimEntryIds rest
  | .entry _ ids :: rest => ids :: claimEntryIds rest

def storyCitLists (s : StoryContent) : List (List String) :=
  s.timeline.map (·.evidenceIds) ++ claimEntryIds s.claims

/-- The same lists before truncation (first pass only). -/
def preCitLists (evidenceList : List EvDict) (data : JVal) : List (List String) :=
  (phase1Timeline (allowedIdsOf evidenceList) (evidenceMapOf evidenceList)
      (jArrField data "timeline")).map (·.evidenceIds) ++
    claimEntryIds (phase1Claims (allowedIdsOf evidenceList) (jArrField data "claims"))

/-- Total number of citations of a story. -/
def totalCitations (s : StoryContent) : Nat :=
  ((storyCitLists s).map (·.length)).sum

/-! ## Lemmas about citation normalization and truncation -/

theorem normIdsGo_subset (allowed : List String) :
    ∀ (l : List JVal) (seen : List String) (x : String),
      x ∈ normIdsGo allowed seen l → x ∈ allowed := by
  intro l
  induction l with
  | nil => intro seen x h; simp [normIdsGo] at h
  | cons hd tl ih =>
    intro seen x h
    cases hd with
    | str s =>
      simp only [normIdsGo] at h
      split at h
      · rename_i hcond
        rcases List.mem_cons.mp h with h' | h'
        · subst h'; exact hcond.1
        · exact ih _ x h'
      · exact ih _ x h
    | null => exact ih _ x h
    | bool b => exact ih _ x h
    | num n => exact ih _ x h
    | arr xs => exact ih _ x h
    | obj fs => exact ih _ x h

theorem normalizeIds_subset (allowed : List String) (v : JVal) (x : String)
    (h : x ∈ normalizeIds allowed v) : x ∈ allowed := by
  cases v <;> simp only [normalizeIds] at h <;> first
    | exact absurd h (List.not_mem_nil x)
    | exact normIdsGo_subset allowed _ _ x h

/-- Generic form of the truncation loop, on bare citation lists. -/
def truncCits : Nat → List (List String) → List (List String) × Nat
  | r, [] => ([], r)
  | r, ids :: rest =>
    let kept := ids.take r
    let (rs, r') := truncCits (r - kept.length) rest
    (kept :: rs, r')

theorem truncTL_eq_truncCits (r : Nat) (tl : List TLOut) :
    ((truncTL r tl).1).map (·.evidenceIds) = (truncCits r (tl.map (·.evidenceIds))).1 ∧
      (truncTL r tl).2 = (truncCits r (tl.map (·.evidenceIds))).2 := by
  induction tl generalizing r with
  | nil => simp [truncTL, truncCits]
  | cons e es ih =>
    simp only [truncTL, truncCits, List.map_cons]
    exact ⟨by simp [(ih _).1], (ih _).2⟩

theorem truncClaims_eq_truncCits (r : Nat) (cl : List ClaimOut) :
    claimEntryIds (truncClaims r cl).1 = (truncCits r (claimEntryIds cl)).1 ∧
      (truncClaims r cl).2 = (truncCits r (claimEntryIds cl)).2 := by
  induction cl generalizing r with
  | nil => simp [truncClaims, truncCits, claimEntryIds]
  | cons c cs ih =>
    cases c with
    | raw v =>
      simp only [truncClaims, claimEntryIds]
      exact ⟨(ih _).1, (ih _).2⟩
    | entry s ids =>
      simp only [truncClaims, claimEntryIds, truncCits]
      exact ⟨by simp [(ih _).1], (ih _).2⟩

theorem truncCits_append (r : Nat) (xs ys : List (List String)) :
    truncCits r (xs ++ ys) =
      ((truncCits r xs).1 ++ (truncCits (truncCits r xs).2 ys).1,
        (truncCits (truncCits r xs).2 ys).2) := by
  induction xs generalizing r with
  | nil => simp [truncCits]
  | cons ids rest ih => simp [truncCits, ih]

theorem truncCits_sum (r : Nat) (xs : List (List String)) :
    (((truncCits r xs).1).map (·.length)).sum + (truncCits r xs).2 = r := by
  induction xs generalizing r with
  | nil => simp [truncCits]
  | cons ids rest ih =>
    simp only [truncCits, List.map_cons, List.sum_cons]
    have hk : (ids.take r).length ≤ r := by
      simp [List.length_take]
    have := ih (r - (ids.take r).length)
    omega

theorem truncCits_length (r : Nat) (xs : List (List String)) :
    ((truncCits r xs).1).length = xs.length := by
  induction xs generalizing r with
  | nil => simp [truncCits]
  | cons ids rest ih => simp [truncCits, ih]

theorem truncCits_sublists (r : Nat) (xs : List (List String)) :
    ∀ ids' ∈ (truncCits r xs).1, ∃ ids ∈ xs, ∀ x ∈ ids', x ∈ ids := by
  induction xs generalizing r with
  | nil => simp [truncCits]
  | cons ids rest ih =>
    intro ids' h
    simp only [truncCits] at h
    rcases List.mem_cons.mp h with h' | h'
    · exact ⟨ids, List.mem_cons_self _ _, by
        subst h'; intro x hx; exact List.mem_of_mem_take hx⟩
    · rcases ih _ ids' h' with ⟨l, hl, hsub⟩
      exact ⟨l, List.mem_cons_of_mem _ hl, hsub⟩

theorem truncCits_zero (xs : List (List String)) :
    ∀ ids' ∈ (truncCits 0 xs).1, ids' = [] := by
  induction xs with
  | nil => simp [truncCits]
  | cons ids rest ih =>
    intro ids' h
    simp only [truncCits, List.take_zero, Nat.zero_sub] at h
    rcases List.mem_cons.mp h with h' | h'
    · exact h'
    · exact ih ids' h'

theorem truncCits_keep_earlier :
    ∀ (xs : List (List String)) (r i j : Nat), i < j →
      (∃ l, ((truncCits r xs).1)[j]? = some l ∧ l ≠ []) →
      ((truncCits r xs).1)[i]? = xs[i]? := by
  intro xs
  induction xs with
  | nil => intro r i j _ h; simp [truncCits] at h ⊢
  | cons ids rest ih =>
    intro r i j hij hj
    simp only [truncCits] at hj ⊢
    match j, hij with
    | j' + 1, hij =>
      rcases hj with ⟨l, hl, hlne⟩
      rw [List.getElem?_cons_succ] at hl
      have hrpos : 0 < r - (ids.take r).length := by
        by_contra hzero
        push_neg at hzero
        interval_cases h : r - (ids.take r).length
        · have := List.getElem?_mem hl
          exact hlne (truncCits_zero rest l this)
      match i with
      | 0 =>
        simp only [List.getElem?_cons_zero, Option.some.injEq]
        have hlen : ids.length < r := by
          have := List.length_take r ids
          omega
        exact List.take_of_length_le (le_of_lt hlen)
      | i' + 1 =>
        simp only [List.getElem?_cons_succ]
        exact ih _ i' j' (by omega) ⟨l, hl, hlne⟩

theorem processTL_some (allowed : List String) (emap : List (String × EvDict))
    (it : JVal) (e : TLOut) (h : (processTimelineItem allowed emap it).1 = some e) :
    e.src = it ∧
      e.evidenceIds = normalizeIds allowed (jGetD it "evidence_ids" .null) ∧
      jTruthy (jGetD it "_invalid" .null) = false ∧
      (normalizeDate (jGetD it "date" (.str "")) = some e.date ∨
        (normalizeDate (jGetD it "date" (.str "")) = none ∧
          getDateFromEvidence (normalizeIds allowed (jGetD it "evidence_ids" .null)) emap =
            some e.date)) := by
  cases it with
  | obj fs =>
    simp only [processTimelineItem] at h
    rcases hnd : normalizeDate (jGetD (JVal.obj fs) "date" (.str "")) with _ | d0 <;>
      rw [hnd] at h
    · by_cases hids : (normalizeIds allowed (jGetD (JVal.obj fs) "evidence_ids" JVal.null)).isEmpty
      · rw [if_pos hids] at h
        exact absurd h (by simp)
      · rw [if_neg hids] at h
        rcases hg : getDateFromEvidence
            (normalizeIds allowed (jGetD (JVal.obj fs) "evidence_ids" JVal.null)) emap with _ | d1 <;>
          rw [hg] at h
        · exact absurd h (by simp)
        · dsimp only at h
          by_cases hinv : jTruthy (jGetD (JVal.obj fs) "_invalid" JVal.null)
          · rw [if_pos hinv] at h
            exact absurd h (by simp)
          · rw [if_neg hinv] at h
            obtain rfl := (Option.some_inj.mp h).symm
            exact ⟨rfl, rfl, by simpa using hinv, Or.inr ⟨rfl, rfl⟩⟩
    · dsimp only at h
      by_cases hinv : jTruthy (jGetD (JVal.obj fs) "_invalid" JVal.null)
      · rw [if_pos hinv] at h
        exact absurd h (by simp)
      · rw [if_neg hinv] at h
        obtain rfl := (Option.some_inj.mp h).symm
        exact ⟨rfl, rfl, by simpa using hinv, Or.inl rfl⟩
  | null => exact absurd h (by simp [processTimelineItem])
  | bool b => exact absurd h (by simp [processTimelineItem])
  | num n => exact absurd h (by simp [processTimelineItem])
  | str s => exact absurd h (by simp [processTimelineItem])
  | arr xs => exact absurd h (by simp [processTimelineItem])

theorem processTL_count_of_some (allowed : List String) (emap : List (String × EvDict))
    (it : JVal) (e : TLOut) (h : (processTimelineItem allowed emap it).1 = some e) :
    (processTimelineItem allowed emap it).2 = e.evidenceIds.length := by
  cases it with
  | obj fs =>
    rcases processTL_some allowed emap _ e h with ⟨-, hids, -, -⟩
    rw [hids]
    rfl
  | null => exact absurd h (by simp [processTimelineItem])
  | bool b => exact absurd h (by simp [processTimelineItem])
  | num n => exact absurd h (by simp [processTimelineItem])
  | str s => exact absurd h (by simp [processTimelineItem])
  | arr xs => exact absurd h (by simp [processTimelineItem])

theorem processClaim_obj (allowed : List String) (fs : List (String × JVal)) :
    processClaimItem allowed (.obj fs) =
      (.entry (.obj fs) (normalizeIds allowed (jGetD (.obj fs) "evidence_ids" .null)),
        (normalizeIds allowed (jGetD (.obj fs) "evidence_ids" .null)).length) := rfl

theorem claimEntryIds_phase1_subset (allowed : List String) (claimsRaw : List JVal) :
    ∀ ids ∈ claimEntryIds (phase1Claims allowed claimsRaw), ∀ x ∈ ids, x ∈ allowed := by
  induction claimsRaw with
  | nil => simp [phase1Claims, claimEntryIds]
  | cons it rest ih =>
    intro ids h x hx
    cases it with
    | obj fs =>
      simp only [phase1Claims, List.map_cons, processClaim_obj, claimEntryIds] at h
      rcases List.mem_cons.mp h with h' | h'
      · subst h'; exact normalizeIds_subset allowed _ x hx
      · exact ih ids h' x hx
    | null => exact ih ids h x hx
    | bool b => exact ih ids h x hx
    | num n => exact ih ids h x hx
    | str s => exact ih ids h x hx
    | arr xs => exact ih ids h x hx

theorem phase1Timeline_ids_subset (allowed : List String) (emap : List (String × EvDict))
    (timelineRaw : List JVal) :
    ∀ e ∈ phase1Timeline allowed emap timelineRaw, ∀ x ∈ e.evidenceIds, x ∈ allowed := by
  intro e he x hx
  rcases List.mem_filterMap.mp he with ⟨it, -, hit⟩
  rcases processTL_some allowed emap it e hit with ⟨-, hids, -, -⟩
  rw [hids] at hx
  exact normalizeIds_subset allowed _ x hx

theorem preCitLists_subset (ev : List EvDict) (data : JVal) :
    ∀ ids ∈ preCitLists ev data, ∀ x ∈ ids, x ∈ allowedIdsOf ev := by
  intro ids h x hx
  rcases List.mem_append.mp h with h' | h'
  · rcases List.mem_map.mp h' with ⟨e, he, rfl⟩
    exact phase1Timeline_ids_subset _ _ _ e he x hx
  · exact claimEntryIds_phase1_subset _ _ ids h' x hx

theorem storyCitLists_ok (name : String) (ev : List EvDict) (data : JVal) :
    storyCitLists (generateStoryOk name ev data) =
      if MAX_EVIDENCE_IDS_PER_STORY <
          citTotal (allowedIdsOf ev) (evidenceMapOf ev)
            (jArrField data "timeline") (jArrField data "claims") then
        (truncCits MAX_EVIDENCE_IDS_PER_STORY (preCitLists ev data)).1
      else preCitLists ev data := by
  simp only [generateStoryOk, storyCitLists, preCitLists]
  split
  · rw [(truncTL_eq_truncCits _ _).1, (truncClaims_eq_truncCits _ _).1,
      (truncTL_eq_truncCits _ _).2, truncCits_append]
  · rfl

theorem timeline_ok_correspond (name : String) (ev : List EvDict) (data : JVal) :
    ∀ e ∈ (generateStoryOk name ev data).timeline,
      ∃ e' ∈ phase1Timeline (allowedIdsOf ev) (evidenceMapOf ev) (jArrField data "timeline"),
        e.src = e'.src ∧ e.date = e'.date := by
  have htr : ∀ (r : Nat) (tl : List TLOut), ∀ e ∈ (truncTL r tl).1,
      ∃ e' ∈ tl, e.src = e'.src ∧ e.date = e'.date := by
    intro r tl
    induction tl generalizing r with
    | nil => simp [truncTL]
    | cons a as ih =>
      intro e he
      simp only [truncTL] at he
      rcases List.mem_cons.mp he with h' | h'
      · exact ⟨a, List.mem_cons_self _ _, by subst h'; exact ⟨rfl, rfl⟩⟩
      · rcases ih _ e h' with ⟨e', he', hp⟩
        exact ⟨e', List.mem_cons_of_mem _ he', hp⟩
  intro e he
  simp only [generateStoryOk] at he
  split at he
  · exact htr _ _ e he
  · exact ⟨e, he, rfl, rfl⟩

theorem timeline_ok_length (name : String) (ev : List EvDict) (data : JVal) :
    (generateStoryOk name ev data).timeline.length =
      (phase1Timeline (allowedIdsOf ev) (evidenceMapOf ev) (jArrField data "timeline")).length := by
  have htr : ∀ (r : Nat) (tl : List TLOut), ((truncTL r tl).1).length = tl.length := by
    intro r tl
    have h := congrArg List.length (truncTL_eq_truncCits r tl).1
    simpa [truncCits_length] using h
  simp only [generateStoryOk]
  split
  · exact htr _ _
  · rfl

/-! ## Emitted dates are in canonical `YYYY-MM-DD` shape -/

theorem digitChar10_isDigit (n : Nat) : (digitChar10 n).isDigit = true := by
  unfold digitChar10
  have h : n % 10 < 10 := Nat.mod_lt _ (by norm_num)
  set k := n % 10 with hk
  interval_cases k <;> decide

theorem isoShape_mkDateStr (y m d : Nat) : isoShape (mkDateStr y m d).toList = true := by
  show isoShape [digitChar10 (y / 1000), digitChar10 (y / 100), digitChar10 (y / 10),
    digitChar10 y, '-', digitChar10 (m / 10), digitChar10 m, '-',
    digitChar10 (d / 10), digitChar10 d] = true
  simp [isoShape, digitChar10_isDigit]

theorem mkValidDate_iso (p : PDate) (s : String) (h : mkValidDate p = some s) :
    isoShape s.toList = true := by
  rcases p with ⟨y, m, d⟩
  rcases y with _ | y
  · simp [mkValidDate] at h
  rcases m with _ | m
  · simp [mkValidDate] at h
  rcases d with _ | d
  · simp [mkValidDate] at h
  simp only [mkValidDate] at h
  split at h
  · obtain rfl := Option.some_inj.mp h
    exact isoShape_mkDateStr _ _ _
  · exact absurd h (by simp)

theorem strptimeOne_iso (toks : List FTok) (cs : List Char) (s : String)
    (h : strptimeOne toks cs = some s) : isoShape s.toList = true := by
  unfold strptimeOne at h
  split at h
  · exact mkValidDate_iso _ _ h
  · exact absurd h (by simp)

theorem tryFormats_iso :
    ∀ (fs : List (List FTok)) (cs : List Char) (s : String),
      tryFormats fs cs = some s → isoShape s.toList = true := by
  intro fs
  induction fs with
  | nil => intro cs s h; simp [tryFormats] at h
  | cons f fl ih =>
    intro cs s h
    rw [tryFormats] at h
    split at h
    · rename_i s' hs'
      obtain rfl := Option.some_inj.mp h
      exact strptimeOne_iso f cs _ hs'
    · exact ih cs s h

theorem normalizeDateStr_iso (s t : String) (h : normalizeDateStr s = some t) :
    isoShape t.toList = true := by
  simp only [normalizeDateStr] at h
  split at h
  · exact absurd h (by simp)
  · split at h
    · rename_i hiso
      obtain rfl := Option.some_inj.mp h
      exact hiso
    · exact tryFormats_iso _ _ _ h

theorem normalizeDate_iso (v : JVal) (t : String) (h : normalizeDate v = some t) :
    isoShape t.toList = true := by
  cases v <;> simp only [normalizeDate] at h <;> try exact absurd h (by simp)
  exact normalizeDateStr_iso _ _ h

theorem getDateFromEvidence_iso :
    ∀ (ids : List String) (emap : List (String × EvDict)) (t : String),
      getDateFromEvidence ids emap = some t → isoShape t.toList = true := by
  intro ids
  induction ids with
  | nil => intro emap t h; simp [getDateFromEvidence] at h
  | cons eid rest ih =>
    intro emap t h
    rw [getDateFromEvidence] at h
    split at h
    · rename_i ev _
      split at h
      · split at h
        · rename_i d hd
          obtain rfl := Option.some_inj.mp h
          exact normalizeDateStr_iso _ _ hd
        · exact ih emap t h
      · exact ih emap t h
    · exact ih emap t h

/-! ## Budget bound before truncation -/

theorem preSum_le_citTotal (ev : List EvDict) (data : JVal) :
    ((preCitLists ev data).map (·.length)).sum ≤
      citTotal (allowedIdsOf ev) (evidenceMapOf ev)
        (jArrField data "timeline") (jArrField data "claims") := by
  have htl : ∀ (raw : List JVal),
      (((phase1Timeline (allowedIdsOf ev) (evidenceMapOf ev) raw).map
        (·.evidenceIds)).map (·.length)).sum ≤
        (raw.map (fun it => (processTimelineItem (allowedIdsOf ev) (evidenceMapOf ev) it).2)).sum := by
    intro raw
    induction raw with
    | nil => simp [phase1Timeline]
    | cons it rest ih =>
      simp only [phase1Timeline, List.filterMap_cons, List.map_cons, List.sum_cons]
      rcases hit : (processTimelineItem (allowedIdsOf ev) (evidenceMapOf ev) it).1 with _ | e
      · simpa [phase1Timeline] using le_add_of_nonneg_of_le (Nat.zero_le _) ih
      · rw [processTL_count_of_some _ _ _ _ hit]
        simp only [List.map_cons, List.sum_cons]
        exact Nat.add_le_add_left ih _
  have hcl : ∀ (raw : List JVal),
      ((claimEntryIds (phase1Claims (allowedIdsOf ev) raw)).map (·.length)).sum =
        (raw.map (fun it => (processClaimItem (allowedIdsOf ev) it).2)).sum := by
    intro raw
    induction raw with
    | nil => simp [phase1Claims, claimEntryIds]
    | cons it rest ih =>
      cases it with
      | obj fs =>
        simp only [phase1Claims, List.map_cons, processClaim_obj, claimEntryIds,
          List.sum_cons] at ih ⊢
        omega
      | null => simpa [phase1Claims, claimEntryIds, processClaimItem] using ih
      | bool b => simpa [phase1Claims, claimEntryIds, processClaimItem] using ih
      | num n => simpa [phase1Claims, claimEntryIds, processClaimItem] using ih
      | str s => simpa [phase1Claims, claimEntryIds, processClaimItem] using ih
      | arr xs => simpa [phase1Claims, claimEntryIds, processClaimItem] using ih
  simp only [preCitLists, citTotal, List.map_append, List.sum_append]
  exact Nat.add_le_add (by simpa using htl _) (le_of_eq (hcl _))

theorem processTL_isSome (allowed : List String) (emap : List (String × EvDict)) (it : JVal) :
    ((processTimelineItem allowed emap it).1).isSome =
      (jIsObj it && !jTruthy (jGetD it "_invalid" .null) &&
        ((normalizeDate (jGetD it "date" (.str ""))).isSome ||
          (getDateFromEvidence (normalizeIds allowed (jGetD it "evidence_ids" .null))
            emap).isSome)) := by
  cases it with
  | obj fs =>
    simp only [processTimelineItem, jIsObj, Bool.true_and]
    rcases hnd : normalizeDate (jGetD (JVal.obj fs) "date" (.str "")) with _ | d0
    · by_cases hids : (normalizeIds allowed (jGetD (JVal.obj fs) "evidence_ids" JVal.null)).isEmpty
      · rw [if_pos hids]
        have : normalizeIds allowed (jGetD (JVal.obj fs) "evidence_ids" JVal.null) = [] :=
          List.isEmpty_iff.mp hids
        simp [this, getDateFromEvidence]
      · rw [if_neg hids]
        rcases hg : getDateFromEvidence
            (normalizeIds allowed (jGetD (JVal.obj fs) "evidence_ids" JVal.null)) emap with _ | d1
        · simp
        · dsimp only
          by_cases hinv : jTruthy (jGetD (JVal.obj fs) "_invalid" JVal.null) <;>
            simp [hinv]
    · dsimp only
      by_cases hinv : jTruthy (jGetD (JVal.obj fs) "_invalid" JVal.null) <;> simp [hinv]
  | null => simp [processTimelineItem, jIsObj]
  | bool b => simp [processTimelineItem, jIsObj]
  | num n => simp [processTimelineItem, jIsObj]
  | str s => simp [processTimelineItem, jIsObj]
  | arr xs => simp [processTimelineItem, jIsObj]

theorem phase1Timeline_length (allowed : List String) (emap : List (String × EvDict))
    (raw : List JVal) :
    (phase1Timeline allowed emap raw).length =
      (raw.filter (fun it => jIsObj it && !jTruthy (jGetD it "_invalid" .null) &&
        ((normalizeDate (jGetD it "date" (.str ""))).isSome ||
          (getDateFromEvidence (normalizeIds allowed (jGetD it "evidence_ids" .null))
            emap).isSome))).length := by
  induction raw with
  | nil => simp [phase1Timeline]
  | cons it rest ih =>
    have hs := processTL_isSome allowed emap it
    simp only [phase1Timeline, List.filterMap_cons, List.filter_cons] at *
    rcases hit : (processTimelineItem allowed emap it).1 with _ | e
    · rw [hit] at hs
      simp only [Option.isSome_none] at hs
      rw [← hs]
      simpa using ih
    · rw [hit] at hs
      simp only [Option.isSome_some] at hs
      rw [← hs]
      simpa using ih

/-! ## Claim theorems for the Story Writer -/

/-- C1: for every story produced by the Story Writer — for any model output,
including adversarial outputs that invent ids — every entry in the
`evidence_ids` list of every claim and timeline item of the returned
`StoryContent` is a member of the evidence-id set of the evidence list passed
into that call (truncated to the citation budget); cited ids outside that set
are dropped by `normalize_ids`. -/
theorem claim1_citation_closure (entityName : String) (dossier : JVal)
    (meetingCount threadCount : Nat) (evidenceList : List EvDict)
    (llmResult : Except Unit JVal) (ids : List String) (x : String)
    (hids : ids ∈ storyCitLists
      (generateStory entityName dossier meetingCount threadCount evidenceList llmResult))
    (hx : x ∈ ids) : x ∈ allowedIdsOf evidenceList := by
  cases llmResult with
  | error e => simp [generateStory, storyCitLists, claimEntryIds] at hids
  | ok data =>
    have hok : generateStory entityName dossier meetingCount threadCount evidenceList
        (.ok data) = generateStoryOk entityName evidenceList data := rfl
    rw [hok, storyCitLists_ok] at hids
    split at hids
    · rcases truncCits_sublists _ _ ids hids with ⟨ids0, h0, hsub⟩
      exact preCitLists_subset _ _ ids0 h0 x (hsub x hx)
    · exact preCitLists_subset _ _ ids hids x hx

/-- C2: the total number of citations over all timeline entries and claims of
a returned story never exceeds `MAX_EVIDENCE_IDS_PER_STORY` (for any model
output size); and when the output is truncated, later items lose citations
first — any item after which a nonempty citation list survives keeps its full
pre-truncation citation list. -/
theorem claim2_citation_budget :
    (∀ (entityName : String) (dossier : JVal) (meetingCount threadCount : Nat)
        (evidenceList : List EvDict) (llmResult : Except Unit JVal),
      totalCitations
          (generateStory entityName dossier meetingCount threadCount evidenceList llmResult) ≤
        MAX_EVIDENCE_IDS_PER_STORY) ∧
    (∀ (entityName : String) (evidenceList : List EvDict) (data : JVal) (i j : Nat),
      i < j →
      (∃ l, (storyCitLists (generateStoryOk entityName evidenceList data))[j]? = some l ∧
        l ≠ []) →
      (storyCitLists (generateStoryOk entityName evidenceList data))[i]? =
        (preCitLists evidenceList data)[i]?) := by
  constructor
  · intro entityName dossier meetingCount threadCount evidenceList llmResult
    cases llmResult with
    | error e => simp [generateStory, storyCitLists, claimEntryIds, totalCitations]
    | ok data =>
      have hok : generateStory entityName dossier meetingCount threadCount evidenceList
          (.ok data) = generateStoryOk entityName evidenceList data := rfl
      rw [totalCitations, hok, storyCitLists_ok]
      split
      · have := truncCits_sum MAX_EVIDENCE_IDS_PER_STORY (preCitLists evidenceList data)
        omega
      · rename_i hle
        push_neg at hle
        exact le_trans (preSum_le_citTotal evidenceList data) hle
  · intro entityName evidenceList data i j hij hj
    rw [storyCitLists_ok] at hj ⊢
    split at hj
    · rename_i hgt
      rw [if_pos hgt]
      exact truncCits_keep_earlier _ _ i j hij hj
    · rename_i hgt
      rw [if_neg hgt]

/-- C7 (amended): every emitted timeline date is in canonical normalized
shape; each surviving entry's date is its own normalized model date or, when
that is unparseable, the normalized date of the first cited surviving
evidence item whose date parses; and exactly the items with a resolvable date
(and no pre-set truthy `_invalid` field) appear in the returned timeline. -/
theorem claim7_date_fallback_chain :
    (∀ (entityName : String) (dossier : JVal) (meetingCount threadCount : Nat)
        (evidenceList : List EvDict) (llmResult : Except Unit JVal),
      ∀ e ∈ (generateStory entityName dossier meetingCount threadCount evidenceList
          llmResult).timeline,
        isoShape e.date.toList = true) ∧
    (∀ (entityName : String) (evidenceList : List EvDict) (data : JVal),
      ∀ e ∈ (generateStoryOk entityName evidenceList data).timeline,
        (normalizeDate (jGetD e.src "date" (.str "")) = some e.date ∨
          (normalizeDate (jGetD e.src "date" (.str "")) = none ∧
            getDateFromEvidence
              (normalizeIds (allowedIdsOf evidenceList) (jGetD e.src "evidence_ids" .null))
              (evidenceMapOf evidenceList) = some e.date))) ∧
    (∀ (entityName : String) (evidenceList : List EvDict) (data : JVal),
      (generateStoryOk entityName evidenceList data).timeline.length =
        ((jArrField data "timeline").filter
          (fun it => jIsObj it && !jTruthy (jGetD it "_invalid" .null) &&
            ((normalizeDate (jGetD it "date" (.str ""))).isSome ||
              (getDateFromEvidence
                (normalizeIds (allowedIdsOf evidenceList) (jGetD it "evidence_ids" .null))
                (evidenceMapOf evidenceList)).isSome))).length) := by
  have hchain : ∀ (entityName : String) (evidenceList : List EvDict) (data : JVal),
      ∀ e ∈ (generateStoryOk entityName evidenceList data).timeline,
        (normalizeDate (jGetD e.src "date" (.str "")) = some e.date ∨
          (normalizeDate (jGetD e.src "date" (.str "")) = none ∧
            getDateFromEvidence
              (normalizeIds (allowedIdsOf evidenceList) (jGetD e.src "evidence_ids" .null))
              (evidenceMapOf evidenceList) = some e.date)) := by
    intro entityName evidenceList data e he
    rcases timeline_ok_correspond entityName evidenceList data e he with ⟨e', he', hsrc, hdate⟩
    rcases List.mem_filterMap.mp he' with ⟨it, -, hit⟩
    rcases processTL_some _ _ it e' hit with ⟨hsrc', -, -, hch⟩
    rw [hsrc, hdate, hsrc']
    exact hch
  refine ⟨?_, hchain, ?_⟩
  · intro entityName dossier meetingCount threadCount evidenceList llmResult e he
    cases llmResult with
    | error err => simp [generateStory] at he
    | ok data =>
      have hok : generateStory entityName dossier meetingCount threadCount evidenceList
          (.ok data) = generateStoryOk entityName evidenceList data := rfl
      rw [hok] at he
      rcases hchain entityName evidenceList data e he with h | ⟨-, h⟩
      · exact normalizeDate_iso _ _ h
      · exact getDateFromEvidence_iso _ _ _ h
  · intro entityName evidenceList data
    rw [timeline_ok_length, phase1Timeline_length]

/-! ## Concrete fixtures for witnesses and counterexamples -/

/-- A small evidence list: `e1` has an unparseable date, `e2` a parseable one. -/
def wEv : List EvDict :=
  [⟨"e1", "email", "Kickoff", "not a date", "p1"⟩,
   ⟨"e2", "email", "Sync", "2024-01-02", "p2"⟩]

/-- A model timeline entry with an unparseable date citing `e1` then `e2`. -/
def wTl1 : JVal :=
  .obj [("date", .str "junk"), ("description", .str "d1"),
    ("evidence_ids", .arr [.str "e1", .str "e2"])]

/-- A model timeline entry with a parseable date citing `e2`. -/
def wTl2 : JVal :=
  .obj [("date", .str "2024-02-03"), ("description", .str "d2"),
    ("evidence_ids", .arr [.str "e2"])]

/-- A model output with two timeline entries and one claim that also cites an
invented id. -/
def wData : JVal :=
  .obj [("title", .str "T"),
    ("timeline", .arr [wTl1, wTl2]),
    ("claims", .arr [.obj [("text", .str "c"),
      ("evidence_ids", .arr [.str "e1", .str "bogus"])]])]

/-- The surviving first timeline entry: its date fell back to `e2`'s date
(the first cited item whose date parses). -/
def wEntry : TLOut := ⟨wTl1, ["e1", "e2"], "2024-01-02"⟩

/-- The surviving second timeline entry. -/
def wEntry2 : TLOut := ⟨wTl2, ["e2"], "2024-02-03"⟩

theorem wStory_timeline :
    (generateStoryOk "X" wEv wData).timeline = [wEntry, wEntry2] := rfl

/-- Witness for C1 at a concrete call. -/
theorem claim1_citation_closure_witness : "e1" ∈ allowedIdsOf wEv :=
  claim1_citation_closure "X" .null 0 0 wEv (.ok wData) ["e1", "e2"] "e1"
    (by decide) (by decide)

/-- Witness for C2 at a concrete call. -/
theorem claim2_citation_budget_witness :
    (storyCitLists (generateStoryOk "X" wEv wData))[0]? = (preCitLists wEv wData)[0]? :=
  claim2_citation_budget.2 "X" wEv wData 0 1 (by norm_num)
    ⟨["e2"], by decide, by decide⟩

/-- Witness for C7 (amended) at a concrete call. -/
theorem claim7_date_fallback_chain_witness : isoShape ("2024-01-02" : String).toList = true := by
  have hmem : wEntry ∈ (generateStory "X" JVal.null 0 0 wEv (Except.ok wData)).timeline := by
    have hok : generateStory "X" JVal.null 0 0 wEv (Except.ok wData) =
        generateStoryOk "X" wEv wData := rfl
    rw [hok, wStory_timeline]
    exact List.mem_cons_self _ _
  exact claim7_date_fallback_chain.1 "X" JVal.null 0 0 wEv (.ok wData) wEntry hmem

/-- Counterexample to C7 as stated: in the story generated from `wData`, the
first timeline entry's model date is unparseable and the entry is emitted, but
its date is `e2`'s date `"2024-01-02"`, not the date of the *first* surviving
cited evidence item `e1` (whose date `"not a date"` does not parse). -/
theorem claim7_counterexample :
    (generateStoryOk "X" wEv wData).timeline.map (·.date) = ["2024-01-02", "2024-02-03"] ∧
    normalizeDate (jGetD wTl1 "date" (.str "")) = none ∧
    (generateStoryOk "X" wEv wData).timeline.map (·.evidenceIds) = [["e1", "e2"], ["e2"]] ∧
    (evidenceMapOf wEv).lookup "e1" = some ⟨"e1", "email", "Kickoff", "not a date", "p1"⟩ ∧
    normalizeDateStr "not a date" = none ∧
    ("2024-01-02" : String) ≠ "not a date" := by
  refine ⟨by decide, by decide, by decide, by decide, by decide, by decide⟩

/-! ## Ingestion job (`ingest_snapshot.py`): data model

The database is modelled in memory: rows carry the columns the pipeline
reads/writes; row ids are `Nat` drawn from a counter (standing in for UUIDs);
`occurred_at.date()` is an abstract day number.  Participant entries are the
`{email, name, role}` dicts written by `store_gmail_evidence` /
`store_calendar_evidence`, whose `email`/`name` values are always strings. -/

inductive SourceType where
  | gmail_message
  | calendar_event
deriving DecidableEq

inductive EntityKind where
  | person
  | org
deriving DecidableEq

structure Participant where
  email : String
  name : String
deriving DecidableEq

structure EvidenceRow where
  id : Nat
  snapshotId : Nat
  sourceType : SourceType
  occurredDay : Int
  durationMinutes : Option Int
  isBulk : Bool
  participants : List Participant
deriving DecidableEq

structure EntityRow where
  id : Nat
  snapshotId : Nat
  kind : EntityKind
  name : String
  primaryEmail : Option String
  domain : Option String
  score : Int
  interactionDays : Nat
  meetingCount : Nat
  emailCount : Nat
  totalMeetingMinutes : Int
deriving DecidableEq

structure EntityEvidenceRow where
  snapshotId : Nat
  entityId : Nat
  evidenceId : Nat
deriving DecidableEq

inductive ArtifactType where
  | wrapped_cards
  | top_entities
  | graph
  | thread_summary
  | meeting_summary
  | entity_dossier
  | global_themes
  | story_text
  | story_verification
deriving DecidableEq

structure ArtifactRow where
  id : Nat
  snapshotId : Nat
  type : ArtifactType
  key : String
  data : JVal
  modelName : Option String
  promptVersion : Option String

structure Db where
  evidence : List EvidenceRow
  entities : List EntityRow
  entityEvidence : List EntityEvidenceRow
  artifacts : List ArtifactRow
  nextId : Nat

/-! ## String helpers (kernel-reducible counterparts of Python `str` methods) -/

/-- Python `.lower()` (ASCII; emails in this codebase are ASCII). -/
def lowerStr (s : String) : String := String.mk (s.toList.map Char.toLower)

def splitCharGo (c : Char) : List Char → List Char → List String
  | [], acc => [String.mk acc.reverse]
  | x :: xs, acc =>
    if x == c then String.mk acc.reverse :: splitCharGo c xs []
    else splitCharGo c xs (x :: acc)

/-- Python `s.split(c)` for a one-character separator. -/
def splitOnChar (c : Char) (s : String) : List String := splitCharGo c s.toList []

def splitFirstAtGo (c : Char) : List Char → List Char → Option (String × String)
  | [], _ => none
  | x :: xs, acc =>
    if x == c then some (String.mk acc.reverse, String.mk xs)
    else splitFirstAtGo c xs (x :: acc)

/-- Python `s.split(c, 1)` when `c` occurs in `s` (`none` otherwise). -/
def splitFirstAt (c : Char) (s : String) : Option (String × String) :=
  splitFirstAtGo c s.toList []

/-- Python `.strip()`. -/
def pyStrip (s : String) : String := String.mk (pyStripChars s.toList)

def endsWithStr (t : String) (s : String) : Bool :=
  t.toList.reverse.isPrefixOf s.toList.reverse

def replaceChar (a b : Char) (s : String) : String :=
  String.mk (s.toList.map (fun c => if c == a then b else c))

def splitWsGo : List Char → List Char → List String
  | [], acc => [String.mk acc.reverse]
  | x :: xs, acc =>
    if x.isWhitespace then String.mk acc.reverse :: splitWsGo xs []
    else splitWsGo xs (x :: acc)

/-- Python `s.split()` (whitespace, empty pieces removed). -/
def splitWs (s : String) : List String := (splitWsGo s.toList []).filter (· ≠ "")

def joinWith (sep : String) : List String → String
  | [] => ""
  | [w] => w
  | w :: ws => w ++ sep ++ joinWith sep ws

/-! ## `gmail.is_automated_sender` -/

/-- The prefix language of `AUTOMATED_SENDER_PATTERNS`: each anchored regex
alternative expanded into its literal prefixes (`[-_]?` gives three variants,
a trailing `s?` makes the bare stem a sufficient prefix). -/
def AUTOMATED_SENDER_PREFIXES : List String :=
  ["noreply", "no-reply", "no_reply",
   "donotreply", "donot-reply", "donot_reply",
   "do-notreply", "do-not-reply", "do-not_reply",
   "do_notreply", "do_not-reply", "do_not_reply",
   "notification", "update", "alert",
   "mailerdaemon", "mailer-daemon", "mailer_daemon",
   "postmaster", "bounce", "daemon",
   "autoconfirm", "auto-confirm", "auto_confirm",
   "autoreply", "auto-reply", "auto_reply"]

/-- `is_automated_sender`: anchored, case-insensitive match of the patterns
against the part of the address before the first `@`. -/
def isAutomatedSender (email : String) : Bool :=
  if email.toList.isEmpty then false
  else
    let localPart := lowerStr ((splitOnChar '@' email).headD email)
    AUTOMATED_SENDER_PREFIXES.any (fun p => p.toList.isPrefixOf localPart.toList)

/-! ## `extract_entities` -/

structure EntityStats where
  email : String
  name : String
  interactionDates : List Int
  meetingCount : Nat
  emailCount : Nat
  totalMeetingMinutes : Int
  evidenceIds : List Nat
deriving DecidableEq

/-- Python `set.add` on a set modelled as a duplicate-free list. -/
def setAdd {α : Type} [DecidableEq α] (l : List α) (x : α) : List α :=
  if x ∈ l then l else l ++ [x]

def initStats (email pname : String) : EntityStats :=
  { email := email, name := pname, interactionDates := [], meetingCount := 0,
    emailCount := 0, totalMeetingMinutes := 0, evidenceIds := [] }

/-- The per-participant statistics update of the `extract_entities` loop. -/
def bumpStats (row : EvidenceRow) (pname : String) (s : EntityStats) : EntityStats :=
  let s1 := { s with interactionDates := setAdd s.interactionDates row.occurredDay,
                     evidenceIds := setAdd s.evidenceIds row.id }
  let s2 := if pname != "" && s1.name == "" then { s1 with name := pname } else s1
  match row.sourceType with
  | .gmail_message => { s2 with emailCount := s2.emailCount + 1 }
  | .calendar_event =>
    { s2 with meetingCount := s2.meetingCount + 1,
              totalMeetingMinutes := s2.totalMeetingMinutes + row.durationMinutes.getD 0 }

/-- Update-or-insert in the insertion-ordered `entity_stats` dict. -/
def applyStats (email : String) (f : EntityStats → EntityStats) (fresh : EntityStats) :
    List EntityStats → List EntityStats
  | [] => [f fresh]
  | s :: rest =>
    if s.email == email then f s :: rest else s :: applyStats email f fresh rest

def accumParticipant (userEmail : String) (row : EvidenceRow)
    (acc : List EntityStats) (p : Participant) : List EntityStats :=
  let email := lowerStr p.email
  if email == "" || email == lowerStr userEmail then acc
  else if isAutomatedSender email then acc
  else applyStats email (bumpStats row p.name) (initStats email p.name) acc

/-- The statistics accumulation over all (non-bulk) evidence rows. -/
def buildEntityStats (rows : List EvidenceRow) (userEmail : String) : List EntityStats :=
  rows.foldl (fun acc row => row.participants.foldl (accumParticipant userEmail row) acc) []

/-- The eligibility threshold: 2+ distinct days OR 2+ meetings OR 5+ emails. -/
def isEligible (s : EntityStats) : Bool :=
  decide (2 ≤ s.interactionDates.length) || decide (2 ≤ s.meetingCount) ||
    decide (5 ≤ s.emailCount)

/-- The heuristic score of `extract_entities`. -/
def entityScore (s : EntityStats) : Int :=
  s.totalMeetingMinutes * 2 + (s.meetingCount : Int) * 30 + (s.emailCount : Int) * 5 +
    (s.interactionDates.length : Int) * 10

def mkEntityRow (snapshotId idv : Nat) (s : EntityStats) : EntityRow :=
  { id := idv
    snapshotId := snapshotId
    kind := .person
    name := if s.name != "" then s.name else (splitOnChar '@' s.email).headD s.email
    primaryEmail := some s.email
    domain := match splitOnChar '@' s.email with | _ :: d :: _ => some d | _ => none
    score := entityScore s
    interactionDays := s.interactionDates.length
    meetingCount := s.meetingCount
    emailCount := s.emailCount
    totalMeetingMinutes := s.totalMeetingMinutes }

/-- The entity-creation loop: one `Entity` row plus its `EntityEvidence` links
per eligible email, ids drawn from the counter. -/
def createPersonEntities (snapshotId : Nat) :
    List EntityStats → Db → List EntityRow × Db
  | [], db => ([], db)
  | s :: rest, db =>
    let e := mkEntityRow snapshotId db.nextId s
    let db' := { db with
      entities := db.entities ++ [e]
      entityEvidence := db.entityEvidence ++
        s.evidenceIds.map (fun evid => EntityEvidenceRow.mk snapshotId e.id evid)
      nextId := db.nextId + 1 }
    let (es, db'') := createPersonEntities snapshotId rest db'
    (e :: es, db'')

/-- Stable insertion into a descending-by-score list (equal scores keep the
insertion order, like Python's stable `sorted`). -/
def insertDescBy {α : Type} (f : α → Int) (e : α) : List α → List α
  | [] => [e]
  | x :: xs => if f e < f x then x :: insertDescBy f e xs else e :: x :: xs

def sortDescBy {α : Type} (f : α → Int) (l : List α) : List α :=
  l.foldr (insertDescBy f) []

/-- `extract_entities`: build stats from the snapshot's non-bulk evidence,
filter by the threshold, create rows, and return them sorted by score
descending.  Note: there is no existing-rows guard here (unlike
`extract_top_organizations`). -/
def extractEntities (db : Db) (snapshotId : Nat) (userEmail : String) :
    List EntityRow × Db :=
  let rows := db.evidence.filter (fun r => r.snapshotId == snapshotId && !r.isBulk)
  let sts := buildEntityStats rows userEmail
  let elig := sts.filter isEligible
  let created := createPersonEntities snapshotId elig db
  (sortDescBy (·.score) created.1, created.2)

/-! ## `extract_top_organizations` -/

def PERSONAL_EMAIL_DOMAINS : List String :=
  ["gmail.com", "googlemail.com", "yahoo.com", "yahoo.co.uk", "outlook.com",
   "hotmail.com", "live.com", "msn.com", "icloud.com", "me.com", "mac.com",
   "aol.com", "proton.me", "protonmail.com", "pm.me", "fastmail.com", "hey.com"]

/-- `_should_skip_org_domain`. -/
def shouldSkipOrgDomain (domain : String) (userDomain : Option String) : Bool :=
  let d := pyStrip (lowerStr domain)
  if d == "" then true
  else if (match userDomain with
           | some u => u != "" && d == pyStrip (lowerStr u)
           | none => false) then true
  else if d ∈ PERSONAL_EMAIL_DOMAINS then true
  else if endsWithStr ".gserviceaccount.com" d then true
  else false

/-- `_extract_base_domain`. -/
def extractBaseDomain (domain : String) : String :=
  match ((splitOnChar '.' (lowerStr domain)).filter (· ≠ "")).reverse with
  | r1 :: r2 :: rest =>
    if !rest.isEmpty && r1.toList.length == 2 &&
        (r2 ∈ ["co", "com", "org", "net", "gov", "ac", "edu"] : Bool) then
      rest.headD ""
    else r2
  | _ => lowerStr domain

/-- `_domain_to_org_name`. -/
def domainToOrgName (domain : String) : String :=
  let base := extractBaseDomain domain
  let cleaned := pyStrip (replaceChar '_' ' ' (replaceChar '-' ' ' base))
  if cleaned == "" then domain
  else
    joinWith " " ((splitWs cleaned).map (fun w =>
      match w.toList with
      | [] => ""
      | c :: rest => String.mk (c.toUpper :: rest)))

structure OrgStats where
  domain : String
  interactionDates : List Int
  meetingCount : Nat
  emailCount : Nat
  totalMeetingMinutes : Int
  evidenceIds : List Nat
  contactEmails : List String
deriving DecidableEq

def initOrgStats (domain : String) : OrgStats :=
  { domain := domain, interactionDates := [], meetingCount := 0, emailCount := 0,
    totalMeetingMinutes := 0, evidenceIds := [], contactEmails := [] }

/-- `emails_by_domain.setdefault(domain, set()).add(email)`, keeping the
domains in first-seen order (Python's per-row sets have no observable order
beyond the stats they produce). -/
def assocUpdate {α : Type} (l : List (String × α)) (k : String) (f : α → α) (init : α) :
    List (String × α) :=
  match l with
  | [] => [(k, f init)]
  | (k', v) :: rest =>
    if k' == k then (k, f v) :: rest else (k', v) :: assocUpdate rest k f init

/-- One participant of one evidence row, accumulating the row's
`domains_in_evidence` / `emails_by_domain`. -/
def addOrgParticipant (userEmail : String) (userDomain : Option String)
    (acc : List (String × List String)) (p : Participant) : List (String × List String) :=
  let email := lowerStr p.email
  if email == "" || email == lowerStr userEmail then acc
  else if isAutomatedSender email then acc
  else
    match splitFirstAt '@' email with
    | none => acc
    | some q =>
      let domain := lowerStr q.2
      if shouldSkipOrgDomain domain userDomain then acc
      else assocUpdate acc domain (fun emails => setAdd emails email) []

/-- The per-domain statistics update of the `extract_top_organizations` loop. -/
def bumpOrgStats (row : EvidenceRow) (emails : List String) (s : OrgStats) : OrgStats :=
  let s1 := { s with interactionDates := setAdd s.interactionDates row.occurredDay,
                     evidenceIds := setAdd s.evidenceIds row.id,
                     contactEmails := emails.foldl setAdd s.contactEmails }
  match row.sourceType with
  | .gmail_message => { s1 with emailCount := s1.emailCount + 1 }
  | .calendar_event =>
    { s1 with meetingCount := s1.meetingCount + 1,
              totalMeetingMinutes := s1.totalMeetingMinutes + row.durationMinutes.getD 0 }

def applyOrgStats (domain : String) (f : OrgStats → OrgStats) (fresh : OrgStats) :
    List OrgStats → List OrgStats
  | [] => [f fresh]
  | s :: rest =>
    if s.domain == domain then f s :: rest else s :: applyOrgStats domain f fresh rest

def accumOrgRow (userEmail : String) (userDomain : Option String)
    (acc : List OrgStats) (row : EvidenceRow) : List OrgStats :=
  let domains := row.participants.foldl (addOrgParticipant userEmail userDomain) []
  domains.foldl
    (fun acc2 q => applyOrgStats q.1 (bumpOrgStats row q.2) (initOrgStats q.1) acc2) acc

def orgEligible (s : OrgStats) : Bool :=
  decide (2 ≤ s.interactionDates.length) || decide (2 ≤ s.meetingCount) ||
    decide (5 ≤ s.emailCount)

/-- The organization score (the person formula plus the contact term). -/
def orgScore (s : OrgStats) : Int :=
  s.totalMeetingMinutes * 2 + (s.meetingCount : Int) * 30 + (s.emailCount : Int) * 5 +
    (s.interactionDates.length : Int) * 10 + (s.contactEmails.length : Int) * 25

def mkOrgRow (snapshotId idv : Nat) (s : OrgStats) : EntityRow :=
  { id := idv
    snapshotId := snapshotId
    kind := .org
    name := domainToOrgName s.domain
    primaryEmail := none
    domain := some s.domain
    score := orgScore s
    interactionDays := s.interactionDates.length
    meetingCount := s.meetingCount
    emailCount := s.emailCount
    totalMeetingMinutes := s.totalMeetingMinutes }

def createOrgEntities (snapshotId : Nat) :
    List OrgStats → Db → List (EntityRow × Nat) × Db
  | [], db => ([], db)
  | s :: rest, db =>
    let e := mkOrgRow snapshotId db.nextId s
    let db' := { db with
      entities := db.entities ++ [e]
      entityEvidence := db.entityEvidence ++
        s.evidenceIds.map (fun evid => EntityEvidenceRow.mk snapshotId e.id evid)
      nextId := db.nextId + 1 }
    let (es, db'') := createOrgEntities snapshotId rest db'
    ((e, s.contactEmails.length) :: es, db'')

/-- The `SELECT ... WHERE kind = org ORDER BY score DESC LIMIT limit` guard
query of `extract_top_organizations`. -/
def orgEntitiesOf (db : Db) (snapshotId : Nat) : List EntityRow :=
  db.entities.filter (fun e => e.snapshotId == snapshotId && e.kind == EntityKind.org)

/-- `extract_top_organizations`: if org entities already exist for the
snapshot, return them (with contact count 0) without writing; otherwise
aggregate domains, filter, score, take the top `limit` and create rows. -/
def extractTopOrganizations (db : Db) (snapshotId : Nat) (userEmail : String)
    (limit : Nat) : List (EntityRow × Nat) × Db :=
  let existing := (sortDescBy (·.score) (orgEntitiesOf db snapshotId)).take limit
  if !existing.isEmpty then
    (existing.map (fun e => (e, 0)), db)
  else
    let userDomain := (splitFirstAt '@' userEmail).map (fun q => lowerStr q.2)
    let rows := db.evidence.filter (fun r => r.snapshotId == snapshotId && !r.isBulk)
    let orgStats := rows.foldl (accumOrgRow userEmail userDomain) []
    if orgStats.isEmpty then ([], db)
    else
      let elig := orgStats.filter orgEligible
      if elig.isEmpty then ([], db)
      else
        let top := (sortDescBy orgScore elig).take limit
        createOrgEntities snapshotId top db

/-! ## `store_artifact` -/

def findArtifact (db : Db) (snapshotId : Nat) (ty : ArtifactType) (key : String) :
    Option ArtifactRow :=
  db.artifacts.find? (fun a => a.snapshotId == snapshotId && a.type == ty && a.key == key)

/-- `store_artifact`: return the existing row for (snapshot, type, key)
unchanged, else insert a new immutable row and commit. -/
def storeArtifact (db : Db) (snapshotId : Nat) (ty : ArtifactType) (key : String)
    (data : JVal) (modelName promptVersion : Option String) : ArtifactRow × Db :=
  match findArtifact db snapshotId ty key with
  | some existing => (existing, db)
  | none =>
    let a : ArtifactRow :=
      ⟨db.nextId, snapshotId, ty, key, data, modelName, promptVersion⟩
    (a, { db with artifacts := db.artifacts ++ [a], nextId := db.nextId + 1 })

/-! ## Lemmas for entity extraction -/

theorem foldl_preserves {α β : Type} (P : α → Prop) (f : α → β → α)
    (hf : ∀ a b, P a → P (f a b)) :
    ∀ (l : List β) (a : α), P a → P (l.foldl f a) := by
  intro l
  induction l with
  | nil => intro a h; exact h
  | cons b bs ih => intro a h; exact ih (f a b) (hf a b h)

theorem bumpStats_email (row : EvidenceRow) (pname : String) (s : EntityStats) :
    (bumpStats row pname s).email = s.email := by
  rcases s with ⟨em, nm, idl, mc, ec, tm, ev⟩
  simp only [bumpStats]
  cases row.sourceType <;> dsimp only <;> split <;> rfl

theorem applyStats_emailList (email : String) (f : EntityStats → EntityStats)
    (fresh : EntityStats) (hf : ∀ s, (f s).email = s.email) (hfresh : fresh.email = email) :
    ∀ l : List EntityStats,
      (applyStats email f fresh l).map (·.email) =
        if email ∈ l.map (·.email) then l.map (·.email) else l.map (·.email) ++ [email] := by
  intro l
  induction l with
  | nil => simp [applyStats, hf, hfresh]
  | cons s rest ih =>
    simp only [applyStats]
    by_cases hs : s.email = email
    · rw [if_pos (by exact beq_iff_eq.mpr hs)]
      simp [hf, hs]
    · rw [if_neg (by simpa using hs)]
      simp only [List.map_cons, ih, List.mem_cons]
      by_cases hmem : email ∈ rest.map (·.email)
      · rw [if_pos hmem, if_pos (Or.inr hmem)]
      · rw [if_neg hmem, if_neg (by
          rintro (h | h)
          · exact hs h.symm
          · exact hmem h)]
        simp

theorem applyStats_nodup (email : String) (f : EntityStats → EntityStats)
    (fresh : EntityStats) (hf : ∀ s, (f s).email = s.email) (hfresh : fresh.email = email)
    (l : List EntityStats) (h : (l.map (·.email)).Nodup) :
    ((applyStats email f fresh l).map (·.email)).Nodup := by
  rw [applyStats_emailList email f fresh hf hfresh l]
  split
  · exact h
  · rename_i hmem
    simp [List.nodup_append, h, hmem]

theorem buildEntityStats_nodup (rows : List EvidenceRow) (userEmail : String) :
    ((buildEntityStats rows userEmail).map (·.email)).Nodup := by
  have hstep : ∀ (acc : List EntityStats) (row : EvidenceRow),
      (acc.map (·.email)).Nodup →
      ((row.participants.foldl (accumParticipant userEmail row) acc).map (·.email)).Nodup := by
    intro acc row hacc
    refine foldl_preserves (fun a => (a.map (·.email)).Nodup)
      (accumParticipant userEmail row) ?_ row.participants acc hacc
    intro a p h2
    simp only [accumParticipant]
    split
    · exact h2
    · split
      · exact h2
      · exact applyStats_nodup (lowerStr p.email) (bumpStats row p.name)
          (initStats (lowerStr p.email) p.name) (fun s => bumpStats_email row p.name s) rfl a h2
  exact foldl_preserves (fun a : List EntityStats => (a.map (·.email)).Nodup) _ hstep rows []
    List.nodup_nil

theorem insertDescBy_mem {α : Type} (f : α → Int) (e x : α) :
    ∀ l : List α, x ∈ insertDescBy f e l ↔ x = e ∨ x ∈ l := by
  intro l
  induction l with
  | nil => simp [insertDescBy]
  | cons a as ih =>
    simp only [insertDescBy]
    split
    · simp only [List.mem_cons, ih]
      tauto
    · simp only [List.mem_cons]

theorem sortDescBy_mem {α : Type} (f : α → Int) (l : List α) (x : α) :
    x ∈ sortDescBy f l ↔ x ∈ l := by
  unfold sortDescBy
  induction l with
  | nil => simp
  | cons a as ih =>
    simp only [List.foldr_cons, insertDescBy_mem, List.mem_cons, ih]

theorem insertDescBy_length {α : Type} (f : α → Int) (e : α) :
    ∀ l : List α, (insertDescBy f e l).length = l.length + 1 := by
  intro l
  induction l with
  | nil => simp [insertDescBy]
  | cons a as ih =>
    simp only [insertDescBy]
    split <;> simp [ih]

theorem sortDescBy_length {α : Type} (f : α → Int) (l : List α) :
    (sortDescBy f l).length = l.length := by
  unfold sortDescBy
  induction l with
  | nil => rfl
  | cons a as ih => simp [insertDescBy_length, ih]

theorem createPersonEntities_dest (snapshotId : Nat) :
    ∀ (l : List EntityStats) (db : Db) (e : EntityRow),
      e ∈ (createPersonEntities snapshotId l db).1 →
        ∃ s ∈ l, ∃ idv, e = mkEntityRow snapshotId idv s := by
  intro l
  induction l with
  | nil => simp [createPersonEntities]
  | cons s rest ih =>
    intro db e he
    simp only [createPersonEntities, List.mem_cons] at he
    rcases he with rfl | he
    · exact ⟨s, List.mem_cons_self _ _, db.nextId, rfl⟩
    · rcases ih _ e he with ⟨s', hs', idv, rfl⟩
      exact ⟨s', List.mem_cons_of_mem _ hs', idv, rfl⟩

theorem createPersonEntities_exists (snapshotId : Nat) :
    ∀ (l : List EntityStats) (db : Db), ∀ s ∈ l,
      ∃ idv, mkEntityRow snapshotId idv s ∈ (createPersonEntities snapshotId l db).1 := by
  intro l
  induction l with
  | nil => simp
  | cons a rest ih =>
    intro db s hs
    rcases List.mem_cons.mp hs with rfl | hs'
    · exact ⟨db.nextId, by simp [createPersonEntities]⟩
    · rcases ih _ s hs' with ⟨idv, hmem⟩
      exact ⟨idv, by simp only [createPersonEntities, List.mem_cons]; right; exact hmem⟩

theorem createOrgEntities_dest (snapshotId : Nat) :
    ∀ (l : List OrgStats) (db : Db) (p : EntityRow × Nat),
      p ∈ (createOrgEntities snapshotId l db).1 →
        ∃ s ∈ l, ∃ idv, p = (mkOrgRow snapshotId idv s, s.contactEmails.length) := by
  intro l
  induction l with
  | nil => simp [createOrgEntities]
  | cons s rest ih =>
    intro db p hp
    simp only [createOrgEntities, List.mem_cons] at hp
    rcases hp with rfl | hp
    · exact ⟨s, List.mem_cons_self _ _, db.nextId, rfl⟩
    · rcases ih _ p hp with ⟨s', hs', idv, rfl⟩
      exact ⟨s', List.mem_cons_of_mem _ hs', idv, rfl⟩

theorem extractEntities_dest (db : Db) (snapshotId : Nat) (userEmail : String)
    (e : EntityRow) (h : e ∈ (extractEntities db snapshotId userEmail).1) :
    ∃ s ∈ (buildEntityStats
        (db.evidence.filter (fun r => r.snapshotId == snapshotId && !r.isBulk))
        userEmail).filter isEligible,
      ∃ idv, e = mkEntityRow snapshotId idv s := by
  have h' : e ∈ (createPersonEntities snapshotId
      ((buildEntityStats
        (db.evidence.filter (fun r => r.snapshotId == snapshotId && !r.isBulk))
        userEmail).filter isEligible) db).1 := (sortDescBy_mem _ _ _).mp h
  exact createPersonEntities_dest snapshotId _ db e h'

theorem extractEntities_exists (db : Db) (snapshotId : Nat) (userEmail : String)
    (s : EntityStats)
    (hs : s ∈ (buildEntityStats
        (db.evidence.filter (fun r => r.snapshotId == snapshotId && !r.isBulk))
        userEmail).filter isEligible) :
    ∃ idv, mkEntityRow snapshotId idv s ∈ (extractEntities db snapshotId userEmail).1 := by
  rcases createPersonEntities_exists snapshotId _ db s hs with ⟨idv, hmem⟩
  exact ⟨idv, (sortDescBy_mem _ _ _).mpr hmem⟩

/-! ## Claim theorems for entity extraction and artifacts -/

/-- C4: a participant email accumulated from a snapshot's non-bulk, non-self,
non-automated evidence yields an `Entity` if and only if (distinct interaction
days >= 2) or (meeting count >= 2) or (item count >= 5) — the item count is
the `email_count` tally of message items kept by `extract_entities` (what the
spec calls "item count"). -/
theorem claim4_eligibility_rule (db : Db) (snapshotId : Nat) (userEmail : String)
    (s : EntityStats)
    (hs : s ∈ buildEntityStats
      (db.evidence.filter (fun r => r.snapshotId == snapshotId && !r.isBulk)) userEmail) :
    (∃ e ∈ (extractEntities db snapshotId userEmail).1, e.primaryEmail = some s.email) ↔
      (2 ≤ s.interactionDates.length ∨ 2 ≤ s.meetingCount ∨ 5 ≤ s.emailCount) := by
  constructor
  · rintro ⟨e, he, hpe⟩
    rcases extractEntities_dest db snapshotId userEmail e he with ⟨s', hs', idv, rfl⟩
    have hse : s'.email = s.email := by
      simpa [mkEntityRow] using hpe
    have hmem' : s' ∈ buildEntityStats
        (db.evidence.filter (fun r => r.snapshotId == snapshotId && !r.isBulk)) userEmail :=
      List.mem_of_mem_filter hs'
    have heq : s' = s :=
      List.inj_on_of_nodup_map (buildEntityStats_nodup _ userEmail) hmem' hs hse
    have helig := List.of_mem_filter hs'
    rw [heq] at helig
    simpa [isEligible, decide_eq_true_eq, or_assoc] using helig
  · intro hcond
    have hfilter : s ∈ (buildEntityStats
        (db.evidence.filter (fun r => r.snapshotId == snapshotId && !r.isBulk))
        userEmail).filter isEligible :=
      List.mem_filter.mpr ⟨hs, by simpa [isEligible, decide_eq_true_eq, or_assoc] using hcond⟩
    rcases extractEntities_exists db snapshotId userEmail s hfilter with ⟨idv, hmem⟩
    exact ⟨mkEntityRow snapshotId idv s, hmem, rfl⟩

/-- C5: every person entity's stored score equals
`total_meeting_minutes*2 + meeting_count*30 + item_count*5 + distinct_days*10`
(item count = the stored `email_count`), and — when the creation branch runs —
every organization entity's score additionally adds
`distinct_contact_count*25`, the returned contact count. -/
theorem claim5_score_formula :
    (∀ (db : Db) (snapshotId : Nat) (userEmail : String) (e : EntityRow),
      e ∈ (extractEntities db snapshotId userEmail).1 →
      e.score = e.totalMeetingMinutes * 2 + (e.meetingCount : Int) * 30 +
        (e.emailCount : Int) * 5 + (e.interactionDays : Int) * 10) ∧
    (∀ (db : Db) (snapshotId : Nat) (userEmail : String) (limit : Nat)
        (p : EntityRow × Nat),
      orgEntitiesOf db snapshotId = [] →
      p ∈ (extractTopOrganizations db snapshotId userEmail limit).1 →
      p.1.score = p.1.totalMeetingMinutes * 2 + (p.1.meetingCount : Int) * 30 +
        (p.1.emailCount : Int) * 5 + (p.1.interactionDays : Int) * 10 + (p.2 : Int) * 25) := by
  constructor
  · intro db snapshotId userEmail e he
    rcases extractEntities_dest db snapshotId userEmail e he with ⟨s, -, idv, rfl⟩
    simp [mkEntityRow, entityScore]
  · intro db snapshotId userEmail limit p hempty hp
    simp only [extractTopOrganizations, hempty] at hp
    simp only [sortDescBy, List.foldr_nil, List.take_nil, List.isEmpty_nil, Bool.not_true,
      Bool.false_eq_true, if_false] at hp
    split at hp
    · simp at hp
    · split at hp
      · simp at hp
      · rcases createOrgEntities_dest snapshotId _ db p hp with ⟨s, -, idv, rfl⟩
        simp [mkOrgRow, orgScore]

theorem storeArtifact_existing (db : Db) (snapshotId : Nat) (ty : ArtifactType)
    (key : String) (data : JVal) (mn pv : Option String) (a : ArtifactRow)
    (h : findArtifact db snapshotId ty key = some a) :
    storeArtifact db snapshotId ty key data mn pv = (a, db) := by
  simp only [storeArtifact, h]

/-- C6: artifact writes are write-once and idempotent — a second
`store_artifact` with the same (snapshot, type, key) and a different payload
returns the first stored artifact unchanged and leaves the store untouched. -/
theorem claim6_artifact_write_once (db : Db) (snapshotId : Nat) (ty : ArtifactType)
    (key : String) (d1 d2 : JVal) (mn1 pv1 mn2 pv2 : Option String)
    (hfresh : findArtifact db snapshotId ty key = none) :
    (storeArtifact db snapshotId ty key d1 mn1 pv1).1.data = d1 ∧
    (storeArtifact (storeArtifact db snapshotId ty key d1 mn1 pv1).2
        snapshotId ty key d2 mn2 pv2).1 =
      (storeArtifact db snapshotId ty key d1 mn1 pv1).1 ∧
    (storeArtifact (storeArtifact db snapshotId ty key d1 mn1 pv1).2
        snapshotId ty key d2 mn2 pv2).2 =
      (storeArtifact db snapshotId ty key d1 mn1 pv1).2 := by
  have hfresh' : (db.artifacts.find? fun a =>
      a.snapshotId == snapshotId && a.type == ty && a.key == key) = none := hfresh
  have hfind2 : findArtifact (storeArtifact db snapshotId ty key d1 mn1 pv1).2
      snapshotId ty key = some (storeArtifact db snapshotId ty key d1 mn1 pv1).1 := by
    simp only [storeArtifact, hfresh]
    simp only [findArtifact, List.find?_append, hfresh']
    simp
  have hsecond := storeArtifact_existing (storeArtifact db snapshotId ty key d1 mn1 pv1).2
    snapshotId ty key d2 mn2 pv2 (storeArtifact db snapshotId ty key d1 mn1 pv1).1 hfind2
  refine ⟨?_, ?_, ?_⟩
  · simp [storeArtifact, hfresh]
  · rw [hsecond]
  · rw [hsecond]

/-- C3 (amended): re-running organization extraction against a snapshot that
already has organization entities is a no-op that returns the existing rows;
person-entity extraction (`extract_entities`) has no such guard and inserts
fresh rows on every run (see the counterexample). -/
theorem claim3_org_rerun_noop (db : Db) (snapshotId : Nat) (userEmail : String)
    (limit : Nat) (hne : orgEntitiesOf db snapshotId ≠ []) (hlim : 0 < limit) :
    (extractTopOrganizations db snapshotId userEmail limit).2 = db ∧
    (extractTopOrganizations db snapshotId userEmail limit).1 =
      ((sortDescBy (·.score) (orgEntitiesOf db snapshotId)).take limit).map
        (fun e => (e, 0)) := by
  have hlen : ((sortDescBy (fun e : EntityRow => e.score)
      (orgEntitiesOf db snapshotId)).take limit).length ≠ 0 := by
    rw [List.length_take, sortDescBy_length]
    have hpos : 0 < (orgEntitiesOf db snapshotId).length := List.length_pos.mpr hne
    omega
  have hemp : ((sortDescBy (fun e : EntityRow => e.score)
      (orgEntitiesOf db snapshotId)).take limit).isEmpty = false := by
    rcases h : (sortDescBy (fun e : EntityRow => e.score)
        (orgEntitiesOf db snapshotId)).take limit with _ | ⟨a, as⟩
    · rw [h] at hlen; simp at hlen
    · rfl
  constructor
  · simp only [extractTopOrganizations, hemp]
    rfl
  · simp only [extractTopOrganizations, hemp]
    rfl

/-- Concrete fixture: two non-bulk gmail messages on distinct days, both with
participant `alice@x.com`. -/
def exRow1 : EvidenceRow :=
  ⟨1, 1, .gmail_message, 0, none, false, [⟨"alice@x.com", "Alice"⟩]⟩

def exRow2 : EvidenceRow :=
  ⟨2, 1, .gmail_message, 1, none, false, [⟨"alice@x.com", "Alice"⟩]⟩

def exDb : Db := ⟨[exRow1, exRow2], [], [], [], 10⟩

/-- The statistics `extract_entities` accumulates for `alice@x.com` on `exDb`. -/
def wAliceStats : EntityStats := ⟨"alice@x.com", "Alice", [0, 1], 0, 2, 0, [1, 2]⟩

/-- The entity row the first extraction run creates on `exDb`. -/
def wAliceRow : EntityRow := mkEntityRow 1 10 wAliceStats

/-- Counterexample to C3 as stated: running `extract_entities` a second time
against a snapshot that already has (person) entities inserts fresh
`Entity`/`EntityEvidence` rows instead of returning the existing rows as a
no-op — the entity table doubles. -/
theorem claim3_counterexample :
    ((extractEntities exDb 1 "me@x.com").2).entities.length = 1 ∧
    ((extractEntities exDb 1 "me@x.com").2).entityEvidence.length = 2 ∧
    ((extractEntities ((extractEntities exDb 1 "me@x.com").2) 1
        "me@x.com").2).entities.length = 2 ∧
    ((extractEntities ((extractEntities exDb 1 "me@x.com").2) 1
        "me@x.com").2).entityEvidence.length = 4 ∧
    ((extractEntities ((extractEntities exDb 1 "me@x.com").2) 1 "me@x.com").1) ≠ [] := by
  refine ⟨by decide, by decide, by decide, by decide, by decide⟩

/-- A pre-existing organization entity. -/
def orgRow : EntityRow := ⟨5, 1, .org, "Acme", none, some "acme.com", 100, 2, 1, 3, 30⟩

def orgDb : Db := ⟨[], [orgRow], [], [], 6⟩

/-- Witness for C3 (amended) at a concrete database. -/
theorem claim3_org_rerun_noop_witness :
    (extractTopOrganizations orgDb 1 "me@x.com" 5).2 = orgDb :=
  (claim3_org_rerun_noop orgDb 1 "me@x.com" 5 (by decide) (by norm_num)).1

/-- Witness for C4 at a concrete database: `alice@x.com` interacted on two
distinct days, so an entity is created for her. -/
theorem claim4_eligibility_rule_witness :
    ∃ e ∈ (extractEntities exDb 1 "me@x.com").1,
      e.primaryEmail = some "alice@x.com" :=
  (claim4_eligibility_rule exDb 1 "me@x.com" wAliceStats (by decide)).mpr
    (Or.inl (by decide))

/-- Witness for C5 at a concrete database. -/
theorem claim5_score_formula_witness :
    wAliceRow.score = wAliceRow.totalMeetingMinutes * 2 +
      (wAliceRow.meetingCount : Int) * 30 + (wAliceRow.emailCount : Int) * 5 +
      (wAliceRow.interactionDays : Int) * 10 :=
  claim5_score_formula.1 exDb 1 "me@x.com" wAliceRow (by decide)

def emptyDb : Db := ⟨[], [], [], [], 0⟩

/-- Witness for C6 at a concrete database: the second write with a different
payload returns the first artifact and changes nothing. -/
theorem claim6_artifact_write_once_witness :
    (storeArtifact emptyDb 1 .wrapped_cards "wrapped" (.num 1) none none).1.data = .num 1 ∧
    (storeArtifact (storeArtifact emptyDb 1 .wrapped_cards "wrapped" (.num 1) none none).2
        1 .wrapped_cards "wrapped" (.num 2) none none).1 =
      (storeArtifact emptyDb 1 .wrapped_cards "wrapped" (.num 1) none none).1 ∧
    (storeArtifact (storeArtifact emptyDb 1 .wrapped_cards "wrapped" (.num 1) none none).2
        1 .wrapped_cards "wrapped" (.num 2) none none).2 =
      (storeArtifact emptyDb 1 .wrapped_cards "wrapped" (.num 1) none none).2 :=
  claim6_artifact_write_once emptyDb 1 .wrapped_cards "wrapped" (.num 1) (.num 2)
    none none none none rfl

/-! ## Batch summarization agents (`thread_agent.py`, `meeting_agent.py`)

Inputs are the thread/event dicts built by the evidence selector; message/
attendee dicts are accessed with `.get`, modelled by `jGetD` (the pipeline
always passes dicts here).  `str(x)` of a list/dict is abstracted to a fixed
marker — no property below inspects it. -/

/-- Python `str(v)` on a JSON value (container repr abstracted). -/
def pyStr : JVal → String
  | .str s => s
  | .num n => intToStr n
  | .bool b => if b then "True" else "False"
  | .null => "None"
  | .arr _ => "[list]"
  | .obj _ => "[dict]"

/-- The `str(x or "")` idiom. -/
def pyStrOrEmpty (v : JVal) : String := if jTruthy v then pyStr v else ""

def digitsToNat (ds : List Char) : Option Nat :=
  if !ds.isEmpty && ds.all Char.isDigit then
    some (ds.foldl (fun a c => a * 10 + digitVal c) 0)
  else none

/-- Python `int(s)` on a string (sign and surrounding whitespace allowed). -/
def parseIntPy (s : String) : Option Int :=
  match pyStripChars s.toList with
  | '+' :: ds => (digitsToNat ds).map Int.ofNat
  | '-' :: ds => (digitsToNat ds).map (fun n => -(n : Int))
  | ds => (digitsToNat ds).map Int.ofNat

structure ThreadSummary where
  thread_id : String
  summary : JVal
  milestones : JVal
  themes : JVal
  participants : JVal
  message_count : JVal
  date_range : JVal

/-- `summarize_thread` (single-thread agent): empty threads short-circuit; a
successful model reply is taken field-by-field with local defaults; a raised
call yields the local placeholder built from the messages alone. -/
def summarizeThread (thread_id subject : String) (messages : List JVal)
    (llm : Except Unit JVal) : ThreadSummary :=
  if messages.isEmpty then
    ⟨thread_id, .str "Empty thread", .arr [], .arr [], .arr [], .num 0, .obj []⟩
  else
    match llm with
    | .ok data =>
      ⟨thread_id, jGetD data "summary" (.str ""), jGetD data "milestones" (.arr []),
        jGetD data "themes" (.arr []), jGetD data "participants" (.arr []),
        jGetD data "message_count" (.num messages.length), jGetD data "date_range" (.obj [])⟩
    | .error _ =>
      ⟨thread_id,
        .str ("Email thread with " ++ natToStr messages.length ++ " messages"),
        .arr [], .arr [],
        .arr ((messages.take 5).map (fun m => .obj [("email", jGetD m "from" (.str ""))])),
        .num messages.length, .obj []⟩

/-- `by_id`: dict keyed by the item's id field, for dict items whose id is a
string with nonempty strip (later items overwrite earlier ones). -/
def buildById (key : String) (items : List JVal) : List (String × JVal) :=
  items.foldl
    (fun m it =>
      match it with
      | .obj fs =>
        match jGet (.obj fs) key with
        | some (.str tid) =>
          if !(pyStripChars tid.toList).isEmpty then assocSet m tid (.obj fs) else m
        | _ => m
      | _ => m)
    []

/-- `str(thread.get("thread_id") or "")`. -/
def localThreadId (t : JVal) : String := pyStrOrEmpty (jGetD t "thread_id" .null)

def localMessages (t : JVal) : List JVal :=
  match jGet t "messages" with
  | some (.arr xs) => xs
  | _ => []

/-- The `message_count` reconciliation: a model int (or bool, an `int` in
Python) is taken as is, a parseable string is converted, anything else keeps
the local count. -/
def parseMessageCount (item : JVal) (localCount : Nat) : JVal :=
  match jGet item "message_count" with
  | none => .num localCount
  | some (.num n) => .num n
  | some (.bool b) => .num (if b then 1 else 0)
  | some .null => .num localCount
  | some (.str s) =>
    match parseIntPy s with
    | some n => .num n
    | none => .num localCount
  | some _ => .num localCount

/-- One output row of the batch path, from the input thread and the model's
matched item (`{}` when unmatched). -/
def buildThreadRow (byId : List (String × JVal)) (t : JVal) : ThreadSummary :=
  let tid := localThreadId t
  let localCount := (localMessages t).length
  let item := (byId.lookup tid).getD (.obj [])
  ⟨tid,
    .str (pyStrOrEmpty (jGetD item "summary" .null)),
    .arr (jArrField item "milestones"),
    .arr (jArrField item "themes"),
    .arr (jArrField item "participants"),
    parseMessageCount item localCount,
    match jGet item "date_range" with
    | some (.obj fs) => .obj fs
    | _ => .obj []⟩

/-- The placeholder row an input receives when no model item matches its id:
assembled only from locally available fields. -/
def unmatchedThreadRow (t : JVal) : ThreadSummary :=
  ⟨localThreadId t, .str "", .arr [], .arr [], .arr [], .num (localMessages t).length,
    .obj []⟩

/-- The sequential per-thread fallback of the batch agent. -/
def threadFallbackPass (threads : List JVal) (perLlm : Nat → Except Unit JVal) :
    List ThreadSummary :=
  threads.enum.map (fun q =>
    summarizeThread (localThreadId q.2) (pyStrOrEmpty (jGetD q.2 "subject" .null))
      (match jGet q.2 "messages" with | some (.arr xs) => xs | _ => []) (perLlm q.1))

/-- `summarize_threads_batch`: one batched call matched back by `thread_id`;
a non-list `threads` payload or a raised call falls back to per-thread calls. -/
def summarizeThreadsBatch (threads : List JVal) (batchLlm : Except Unit JVal)
    (perLlm : Nat → Except Unit JVal) : List ThreadSummary :=
  if threads.isEmpty then []
  else
    match batchLlm with
    | .ok data =>
      match jGet data "threads" with
      | some (.arr items) => threads.map (buildThreadRow (buildById "thread_id" items))
      | some _ => threadFallbackPass threads perLlm
      | none => threads.map (buildThreadRow (buildById "thread_id" []))
    | .error _ => threadFallbackPass threads perLlm

structure MeetingSummary where
  event_id : String
  purpose : JVal
  meeting_type : JVal
  participants : JVal
  topics : JVal
  is_recurring : JVal

/-- `summarize_meeting` (single-event agent). -/
def summarizeMeeting (event_id title date : String) (duration_minutes : Int)
    (location organizer : Option String) (attendees : List JVal)
    (description : Option String) (is_recurring : Bool)
    (llm : Except Unit JVal) : MeetingSummary :=
  match llm with
  | .ok data =>
    ⟨event_id, jGetD data "purpose" (.str ""), jGetD data "meeting_type" (.str "other"),
      jGetD data "participants" (.arr []), jGetD data "topics" (.arr []),
      jGetD data "is_recurring" (.bool is_recurring)⟩
  | .error _ =>
    ⟨event_id, .str (if title != "" then title else "Meeting"), .str "other",
      .arr ((attendees.take 5).map (fun a => .obj [("email", jGetD a "email" (.str ""))])),
      .arr [], .bool is_recurring⟩

/-- `str(event.get("event_id") or "")`. -/
def localEventId (ev : JVal) : String := pyStrOrEmpty (jGetD ev "event_id" .null)

/-- The `is_recurring` coercion of the batch path: bools as is, strings by a
truthy-token set after strip/lower, anything else by Python truthiness. -/
def coerceIsRecurring : JVal → Bool
  | .bool b => b
  | .str s => lowerStr (pyStrip s) ∈ ["1", "true", "yes", "y", "on"]
  | v => jTruthy v

/-- One output row of the meetings batch path. -/
def buildMeetingRow (byId : List (String × JVal)) (ev : JVal) : MeetingSummary :=
  let eid := localEventId ev
  let item := (byId.lookup eid).getD (.obj [])
  let raw :=
    match jGet item "is_recurring" with
    | some v => v
    | none => jGetD ev "is_recurring" (.bool false)
  ⟨eid,
    .str (pyStrOrEmpty (jGetD item "purpose" .null)),
    .str (let mt := jGetD item "meeting_type" .null
          if jTruthy mt then pyStr mt else "other"),
    .arr (jArrField item "participants"),
    .arr (jArrField item "topics"),
    .bool (coerceIsRecurring raw)⟩

/-- The placeholder row of an unmatched event: only local fields. -/
def unmatchedMeetingRow (ev : JVal) : MeetingSummary :=
  ⟨localEventId ev, .str "", .str "other", .arr [], .arr [],
    .bool (coerceIsRecurring (jGetD ev "is_recurring" (.bool false)))⟩

/-- `int(event.get("duration_minutes") or 0)` (pipeline events carry ints; a
non-numeric truthy string would raise in Python and is mapped to 0 here). -/
def pyIntOr0 (v : JVal) : Int :=
  if jTruthy v then
    match v with
    | .num n => n
    | .bool b => if b then 1 else 0
    | .str s => (parseIntPy s).getD 0
    | _ => 0
  else 0

/-- The sequential per-event fallback of the meetings batch agent. -/
def meetingFallbackPass (events : List JVal) (perLlm : Nat → Except Unit JVal) :
    List MeetingSummary :=
  events.enum.map (fun q =>
    summarizeMeeting (localEventId q.2) (pyStrOrEmpty (jGetD q.2 "title" .null))
      (pyStrOrEmpty (jGetD q.2 "date" .null))
      (pyIntOr0 (jGetD q.2 "duration_minutes" .null))
      (match jGet q.2 "location" with | some (.str s) => some s | _ => none)
      (match jGet q.2 "organizer" with | some (.str s) => some s | _ => none)
      (match jGet q.2 "attendees" with | some (.arr xs) => xs | _ => [])
      (match jGet q.2 "description" with | some (.str s) => some s | _ => none)
      (jTruthy (jGetD q.2 "is_recurring" (.bool false)))
      (perLlm q.1))

/-- `summarize_meetings_batch`. -/
def summarizeMeetingsBatch (events : List JVal) (batchLlm : Except Unit JVal)
    (perLlm : Nat → Except Unit JVal) : List MeetingSummary :=
  if events.isEmpty then []
  else
    match batchLlm with
    | .ok data =>
      match jGet data "meetings" with
      | some (.arr items) => events.map (buildMeetingRow (buildById "event_id" items))
      | some _ => meetingFallbackPass events perLlm
      | none => events.map (buildMeetingRow (buildById "event_id" []))
    | .error _ => meetingFallbackPass events perLlm

theorem summarizeThread_tid (thread_id subject : String) (messages : List JVal)
    (llm : Except Unit JVal) :
    (summarizeThread thread_id subject messages llm).thread_id = thread_id := by
  unfold summarizeThread
  split
  · rfl
  · cases llm <;> rfl

theorem summarizeMeeting_eid (event_id title date : String) (duration_minutes : Int)
    (location organizer : Option String) (attendees : List JVal)
    (description : Option String) (is_recurring : Bool) (llm : Except Unit JVal) :
    (summarizeMeeting event_id title date duration_minutes location organizer attendees
      description is_recurring llm).event_id = event_id := by
  unfold summarizeMeeting
  cases llm <;> rfl

theorem threadFallbackPass_ids (threads : List JVal) (perLlm : Nat → Except Unit JVal) :
    (threadFallbackPass threads perLlm).map (·.thread_id) = threads.map localThreadId := by
  unfold threadFallbackPass
  rw [List.map_map]
  have h : threads.enum.map
      ((fun s : ThreadSummary => s.thread_id) ∘ fun q =>
        summarizeThread (localThreadId q.2) (pyStrOrEmpty (jGetD q.2 "subject" .null))
          (match jGet q.2 "messages" with | some (.arr xs) => xs | _ => []) (perLlm q.1)) =
      threads.enum.map (fun q => localThreadId q.2) := by
    apply List.map_congr_left
    intro a _
    exact summarizeThread_tid _ _ _ _
  rw [h]
  have h2 : threads.enum.map (fun q => localThreadId q.2) =
      (threads.enum.map Prod.snd).map localThreadId := by
    rw [List.map_map]
    rfl
  rw [h2, List.enum_map_snd]

theorem meetingFallbackPass_ids (events : List JVal) (perLlm : Nat → Except Unit JVal) :
    (meetingFallbackPass events perLlm).map (·.event_id) = events.map localEventId := by
  unfold meetingFallbackPass
  rw [List.map_map]
  have h : events.enum.map
      ((fun s : MeetingSummary => s.event_id) ∘ fun q =>
        summarizeMeeting (localEventId q.2) (pyStrOrEmpty (jGetD q.2 "title" .null))
          (pyStrOrEmpty (jGetD q.2 "date" .null))
          (pyIntOr0 (jGetD q.2 "duration_minutes" .null))
          (match jGet q.2 "location" with | some (.str s) => some s | _ => none)
          (match jGet q.2 "organizer" with | some (.str s) => some s | _ => none)
          (match jGet q.2 "attendees" with | some (.arr xs) => xs | _ => [])
          (match jGet q.2 "description" with | some (.str s) => some s | _ => none)
          (jTruthy (jGetD q.2 "is_recurring" (.bool false)))
          (perLlm q.1)) =
      events.enum.map (fun q => localEventId q.2) := by
    apply List.map_congr_left
    intro a _
    exact summarizeMeeting_eid _ _ _ _ _ _ _ _ _ _
  rw [h]
  have h2 : events.enum.map (fun q => localEventId q.2) =
      (events.enum.map Prod.snd).map localEventId := by
    rw [List.map_map]
    rfl
  rw [h2, List.enum_map_snd]

/-- C8: each batch summarization agent returns exactly one summary per input,
in input order keyed by the input's own id; inputs unmatched in the model
output receive the local placeholder row; and if the batched call raises, the
agent falls back to one per-item call per input (each itself total, returning
a placeholder on its own failure) — the agents are total functions of the
call outcomes and never propagate an exception. -/
theorem claim8_batch_summarization :
    (∀ (threads : List JVal) (batchLlm : Except Unit JVal)
        (perLlm : Nat → Except Unit JVal),
      (summarizeThreadsBatch threads batchLlm perLlm).length = threads.length ∧
      (summarizeThreadsBatch threads batchLlm perLlm).map (·.thread_id) =
        threads.map localThreadId) ∧
    (∀ (events : List JVal) (batchLlm : Except Unit JVal)
        (perLlm : Nat → Except Unit JVal),
      (summarizeMeetingsBatch events batchLlm perLlm).length = events.length ∧
      (summarizeMeetingsBatch events batchLlm perLlm).map (·.event_id) =
        events.map localEventId) ∧
    (∀ (byId : List (String × JVal)) (t : JVal),
      byId.lookup (localThreadId t) = none → buildThreadRow byId t = unmatchedThreadRow t) ∧
    (∀ (byId : List (String × JVal)) (ev : JVal),
      byId.lookup (localEventId ev) = none → buildMeetingRow byId ev = unmatchedMeetingRow ev) ∧
    (∀ (threads : List JVal) (data : JVal) (items : List JVal)
        (perLlm : Nat → Except Unit JVal),
      threads ≠ [] → jGet data "threads" = some (.arr items) →
      summarizeThreadsBatch threads (.ok data) perLlm =
        threads.map (buildThreadRow (buildById "thread_id" items))) ∧
    (∀ (threads : List JVal) (perLlm : Nat → Except Unit JVal),
      summarizeThreadsBatch threads (.error ()) perLlm = threadFallbackPass threads perLlm) ∧
    (∀ (events : List JVal) (perLlm : Nat → Except Unit JVal),
      summarizeMeetingsBatch events (.error ()) perLlm = meetingFallbackPass events perLlm) := by
  have hthreads_eq : ∀ (threads : List JVal) (data : JVal) (perLlm : Nat → Except Unit JVal),
      summarizeThreadsBatch threads (.ok data) perLlm =
        if threads.isEmpty then []
        else
          match jGet data "threads" with
          | some (.arr items) => threads.map (buildThreadRow (buildById "thread_id" items))
          | some _ => threadFallbackPass threads perLlm
          | none => threads.map (buildThreadRow (buildById "thread_id" [])) :=
    fun _ _ _ => rfl
  have hmeet_eq : ∀ (events : List JVal) (data : JVal) (perLlm : Nat → Except Unit JVal),
      summarizeMeetingsBatch events (.ok data) perLlm =
        if events.isEmpty then []
        else
          match jGet data "meetings" with
          | some (.arr items) => events.map (buildMeetingRow (buildById "event_id" items))
          | some _ => meetingFallbackPass events perLlm
          | none => events.map (buildMeetingRow (buildById "event_id" [])) :=
    fun _ _ _ => rfl
  have hthreads_err : ∀ (threads : List JVal) (e : Unit) (perLlm : Nat → Except Unit JVal),
      summarizeThreadsBatch threads (.error e) perLlm =
        if threads.isEmpty then [] else threadFallbackPass threads perLlm :=
    fun _ _ _ => rfl
  have hmeet_err : ∀ (events : List JVal) (e : Unit) (perLlm : Nat → Except Unit JVal),
      summarizeMeetingsBatch events (.error e) perLlm =
        if events.isEmpty then [] else meetingFallbackPass events perLlm :=
    fun _ _ _ => rfl
  refine ⟨?_, ?_, ?_, ?_, ?_, ?_, ?_⟩
  · intro threads batchLlm perLlm
    constructor
    · cases batchLlm with
      | error e =>
        rw [hthreads_err]
        split
        · rename_i hemp; rw [List.isEmpty_iff.mp hemp]; rfl
        · simp [threadFallbackPass, List.enum_length]
      | ok data =>
        rw [hthreads_eq]
        split
        · rename_i hemp; rw [List.isEmpty_iff.mp hemp]; rfl
        · rcases hth : jGet data "threads" with _ | v
          · simp
          · cases v <;> simp [threadFallbackPass, List.enum_length]
    · cases batchLlm with
      | error e =>
        rw [hthreads_err]
        split
        · rename_i hemp; rw [List.isEmpty_iff.mp hemp]; rfl
        · exact threadFallbackPass_ids threads perLlm
      | ok data =>
        rw [hthreads_eq]
        split
        · rename_i hemp; rw [List.isEmpty_iff.mp hemp]; rfl
        · rcases hth : jGet data "threads" with _ | v
          · dsimp only
            rw [List.map_map]; rfl
          · cases v <;> dsimp only <;> first
              | exact threadFallbackPass_ids threads perLlm
              | (rw [List.map_map]; rfl)
  · intro events batchLlm perLlm
    constructor
    · cases batchLlm with
      | error e =>
        rw [hmeet_err]
        split
        · rename_i hemp; rw [List.isEmpty_iff.mp hemp]; rfl
        · simp [meetingFallbackPass, List.enum_length]
      | ok data =>
        rw [hmeet_eq]
        split
        · rename_i hemp; rw [List.isEmpty_iff.mp hemp]; rfl
        · rcases hth : jGet data "meetings" with _ | v
          · simp
          · cases v <;> simp [meetingFallbackPass, List.enum_length]
    · cases batchLlm with
      | error e =>
        rw [hmeet_err]
        split
        · rename_i hemp; rw [List.isEmpty_iff.mp hemp]; rfl
        · exact meetingFallbackPass_ids events perLlm
      | ok data =>
        rw [hmeet_eq]
        split
        · rename_i hemp; rw [List.isEmpty_iff.mp hemp]; rfl
        · rcases hth : jGet data "meetings" with _ | v
          · dsimp only
            rw [List.map_map]; rfl
          · cases v <;> dsimp only <;> first
              | exact meetingFallbackPass_ids events perLlm
              | (rw [List.map_map]; rfl)
  · intro byId t h
    simp only [buildThreadRow, h]
    rfl
  · intro byId ev h
    simp only [buildMeetingRow, h]
    rfl
  · intro threads data items perLlm hne hget
    rw [hthreads_eq, hget]
    split
    · rename_i hemp
      exact absurd (List.isEmpty_iff.mp hemp) hne
    · rfl
  · intro threads perLlm
    rw [hthreads_err]
    split
    · rename_i hemp
      rw [threadFallbackPass, List.isEmpty_iff.mp hemp]
      rfl
    · rfl
  · intro events perLlm
    rw [hmeet_err]
    split
    · rename_i hemp
      rw [meetingFallbackPass, List.isEmpty_iff.mp hemp]
      rfl
    · rfl

def wThread : JVal :=
  .obj [("thread_id", .str "t1"), ("subject", .str "s"),
    ("messages", .arr [.obj [("from", .str "a@x.com")]])]

/-- Witness for C8 at concrete inputs: an unmatched thread receives the local
placeholder, and a model reply whose `threads` list is empty still yields one
row per input. -/
theorem claim8_batch_summarization_witness :
    buildThreadRow [] wThread = unmatchedThreadRow wThread ∧
    summarizeThreadsBatch [wThread] (.ok (.obj [("threads", .arr [])]))
        (fun _ => .error ()) =
      [wThread].map (buildThreadRow (buildById "thread_id" [])) :=
  ⟨claim8_batch_summarization.2.2.1 [] wThread rfl,
   claim8_batch_summarization.2.2.2.2.1 [wThread] (.obj [("threads", .arr [])]) []
     (fun _ => .error ()) (List.cons_ne_nil _ _) rfl⟩

/-! ## Verifier (`verify_story`), Claim Fixer, and the verification stage of
`generate_entity_story` (lines 1119-1151) -/

structure VerificationResult where
  verdict : JVal
  issues : JVal

/-- `verify_story`: the model's `verdict`/`issues` are passed through with
defaults `"ok"`/`[]`; a raised call yields `("ok", [])`. -/
def verifyStory (claims timeline : JVal) (emap : List (String × JVal))
    (llm : Except Unit JVal) : VerificationResult :=
  match llm with
  | .ok data => ⟨jGetD data "verdict" (.str "ok"), jGetD data "issues" (.arr [])⟩
  | .error _ => ⟨.str "ok", .arr []⟩

/-- Python `v == "some string"` for an arbitrary value `v`. -/
def jvalEqStr (v : JVal) (s : String) : Bool :=
  match v with
  | .str t => t == s
  | _ => false

/-- `fix_claims`: empty issue list short-circuits; a successful model reply
replaces claims/timeline (defaulting to the originals); a raised call returns
the originals. -/
def fixClaims (claims timeline issues : JVal) (emap : List (String × JVal))
    (llm : Except Unit JVal) : JVal × JVal :=
  if !jTruthy issues then (claims, timeline)
  else
    match llm with
    | .ok data => (jGetD data "claims" claims, jGetD data "timeline" timeline)
    | .error _ => (claims, timeline)

structure StoryVerifyOutcome where
  finalClaims : JVal
  finalTimeline : JVal
  verdict : JVal
  issues : JVal
  fixerInvoked : Bool

/-- The verification segment of `generate_entity_story`: when disabled the
verdict is `"skipped"` and the draft passes through; when enabled, the
verifier runs and the fixer is invoked only on `verdict == "needs_fix"` with a
truthy issue list (`fixerInvoked` instruments whether that branch ran). -/
def storyVerificationStage (verificationEnabled : Bool) (claims timeline : JVal)
    (emap : List (String × JVal)) (verifyLlm fixLlm : Except Unit JVal) :
    StoryVerifyOutcome :=
  if verificationEnabled then
    let v := verifyStory claims timeline emap verifyLlm
    if jvalEqStr v.verdict "needs_fix" && jTruthy v.issues then
      let fixed := fixClaims claims timeline v.issues emap fixLlm
      ⟨fixed.1, fixed.2, v.verdict, v.issues, true⟩
    else ⟨claims, timeline, v.verdict, v.issues, false⟩
  else ⟨claims, timeline, .str "skipped", .arr [], false⟩

/-- Counterexample to C9 as stated: `verify_story` passes the model's verdict
through unconstrained, so an adversarial reply yields a verdict outside
{ok, needs_fix, skipped, error}. -/
theorem claim9_counterexample :
    (verifyStory (.arr []) (.arr []) []
        (.ok (.obj [("verdict", .str "banana")]))).verdict = .str "banana" ∧
    ("banana" : String) ∉ (["ok", "needs_fix", "skipped", "error"] : List String) :=
  ⟨rfl, by decide⟩

/-- C9 (amended): when story verification is disabled the pipeline's verdict
is `"skipped"`, the drafted claims and timeline pass through unchanged, and
the Claim Fixer is never invoked; when enabled, the recorded verdict is
whatever the Verifier returned (the model's reported value, `"ok"` when the
field is missing or the call raised) — the code does not restrict it to the
documented set. -/
theorem claim9_verdict_passthrough :
    (∀ (claims timeline : JVal) (emap : List (String × JVal))
        (verifyLlm fixLlm : Except Unit JVal),
      (storyVerificationStage false claims timeline emap verifyLlm fixLlm).verdict =
          .str "skipped" ∧
      (storyVerificationStage false claims timeline emap verifyLlm fixLlm).finalClaims =
          claims ∧
      (storyVerificationStage false claims timeline emap verifyLlm fixLlm).finalTimeline =
          timeline ∧
      (storyVerificationStage false claims timeline emap verifyLlm fixLlm).fixerInvoked =
          false) ∧
    (∀ (claims timeline : JVal) (emap : List (String × JVal))
        (verifyLlm fixLlm : Except Unit JVal),
      (storyVerificationStage true claims timeline emap verifyLlm fixLlm).verdict =
        (verifyStory claims timeline emap verifyLlm).verdict) ∧
    (∀ (claims timeline : JVal) (emap : List (String × JVal)) (e : Unit),
      (verifyStory claims timeline emap (.error e)).verdict = .str "ok") := by
  refine ⟨fun claims timeline emap verifyLlm fixLlm => ⟨rfl, rfl, rfl, rfl⟩, ?_, fun _ _ _ _ => rfl⟩
  intro claims timeline emap verifyLlm fixLlm
  simp only [storyVerificationStage, if_true]
  split <;> rfl

/-! ## Orchestrator failure handling (`run_ingestion`, lines 1219-1509)

The snapshots table is modelled in a session with a committed state and an
optional staged (uncommitted) state; `update_snapshot_status` mutates the row
and commits (selecting nothing is a logged no-op).  The stage sequence B..H is
abstracted as a list of session transformers, each of which may raise (return
an error string): the claim under study concerns only the top-level
`try/except` handler.  `progress_counts` bookkeeping is omitted (not read by
the handler). -/

inductive SnapStatus where
  | queued | running | done | failed
deriving DecidableEq

inductive SnapStage where
  | init | gmail_list | gmail_fetch | calendar_fetch | wrapped_compute
  | entities_compute | story_generate | dossier_precompute | finalize
deriving DecidableEq

structure SnapshotRow where
  id : Nat
  status : SnapStatus
  stage : Option SnapStage
  failureReason : Option String
deriving DecidableEq

structure Sess where
  committed : List SnapshotRow
  pending : Option (List SnapshotRow)
deriving DecidableEq

/-- The rows the session currently sees (staged writes shadow committed ones). -/
def Sess.cur (s : Sess) : List SnapshotRow := s.pending.getD s.committed

def Sess.rollback (s : Sess) : Sess := { s with pending := none }

def Sess.stageWrite (s : Sess) (f : List SnapshotRow → List SnapshotRow) : Sess :=
  { s with pending := some (f s.cur) }

def Sess.commit (s : Sess) : Sess := ⟨s.cur, none⟩

/-- The attribute updates of `update_snapshot_status`: each field is set only
when passed (enums are always truthy) and `failure_reason` only when the
string is nonempty (`if failure_reason:`). -/
def applySnapshotUpd (status : Option SnapStatus) (stage : Option SnapStage)
    (reason : Option String) (r : SnapshotRow) : SnapshotRow :=
  let r1 := match status with | some st => { r with status := st } | none => r
  let r2 := match stage with | some sg => { r1 with stage := some sg } | none => r1
  match reason with
  | some t => if t ≠ "" then { r2 with failureReason := some t } else r2
  | none => r2

/-- `update_snapshot_status`: select the row, mutate, commit; a missing row is
a warning-and-return. -/
def updateSnapshotStatus (s : Sess) (snapshotId : Nat) (status : Option SnapStatus)
    (stage : Option SnapStage) (reason : Option String) : Sess :=
  if s.cur.any (fun r => r.id == snapshotId) then
    Sess.commit (Sess.stageWrite s (fun rows => rows.map (fun r =>
      if r.id == snapshotId then applySnapshotUpd status stage reason r else r)))
  else s

/-- Run the stage sequence until the first raised exception. -/
def runStages : List (Sess → Sess × Option String) → Sess → Sess × Option String
  | [], s => (s, none)
  | st :: rest, s =>
    match st s with
    | (s', none) => runStages rest s'
    | (s', some e) => (s', some e)

structure IngestResult where
  snapshot_id : String
  status : String
  error : Option String
deriving DecidableEq

/-- `run_ingestion`: parse the id, load the snapshot, mark it running, run the
stages, and finalize; any raised stage exception reaches the top-level
handler, which rolls the session back, marks the snapshot failed with the
stringified exception, and returns a structured failure result. -/
def runIngestion (snapshotIdStr : String) (snapshotUuid : Option Nat)
    (stages : List (Sess → Sess × Option String)) (s0 : Sess) : IngestResult × Sess :=
  match snapshotUuid with
  | none =>
    -- UUID(snapshot_id) raised inside the try; snapshot_uuid is still None, so
    -- the handler rolls back and returns without touching any row.
    (⟨snapshotIdStr, "failed", some "badly formed snapshot id"⟩, Sess.rollback s0)
  | some snapshotId =>
    if !s0.cur.any (fun r => r.id == snapshotId) then
      (⟨snapshotIdStr, "failed", some "Snapshot not found"⟩, s0)
    else
      let s1 := updateSnapshotStatus s0 snapshotId (some .running) (some .init) none
      match runStages stages s1 with
      | (s2, none) =>
        let s3 := Sess.commit (Sess.stageWrite s2 (fun rows => rows.map (fun r =>
          if r.id == snapshotId then { r with status := .done, stage := some .finalize }
          else r)))
        (⟨snapshotIdStr, "done", none⟩, s3)
      | (s2, some e) =>
        let s3 := Sess.rollback s2
        let s4 := updateSnapshotStatus s3 snapshotId (some .failed) none (some e)
        (⟨snapshotIdStr, "failed", some e⟩, s4)

/-- C10 (amended): when a stage raises while the snapshot row exists, the
orchestrator rolls back the session's uncommitted writes, marks the snapshot
`failed` — recording the stringified exception as its failure reason whenever
that string is nonempty — and returns a structured failure result; it never
returns leaving the snapshot `running` without a recorded reason. -/
theorem claim10_failure_handling (snapshotIdStr : String) (snapshotId : Nat)
    (stages : List (Sess → Sess × Option String)) (s0 s2 : Sess) (e : String)
    (hrow : s0.cur.any (fun r => r.id == snapshotId) = true)
    (hrun : runStages stages
      (updateSnapshotStatus s0 snapshotId (some .running) (some .init) none) =
        (s2, some e))
    (hrow2 : s2.committed.any (fun r => r.id == snapshotId) = true)
    (hne : e ≠ "") :
    (runIngestion snapshotIdStr (some snapshotId) stages s0).1 =
      ⟨snapshotIdStr, "failed", some e⟩ ∧
    (runIngestion snapshotIdStr (some snapshotId) stages s0).2.pending = none ∧
    (runIngestion snapshotIdStr (some snapshotId) stages s0).2.committed =
      s2.committed.map (fun r =>
        if r.id == snapshotId then
          { r with status := .failed, failureReason := some e }
        else r) ∧
    ∀ r ∈ (runIngestion snapshotIdStr (some snapshotId) stages s0).2.committed,
      r.id = snapshotId → r.status = .failed ∧ r.failureReason = some e := by
  have hbranch : runIngestion snapshotIdStr (some snapshotId) stages s0 =
      (⟨snapshotIdStr, "failed", some e⟩,
        updateSnapshotStatus (Sess.rollback s2) snapshotId (some .failed) none (some e)) := by
    simp only [runIngestion, hrow, Bool.not_true, Bool.false_eq_true, if_false, hrun]
  have hcur : (Sess.rollback s2).cur = s2.committed := rfl
  have hupd : updateSnapshotStatus (Sess.rollback s2) snapshotId (some .failed) none (some e) =
      ⟨s2.committed.map (fun r =>
        if r.id == snapshotId then applySnapshotUpd (some .failed) none (some e) r else r),
        none⟩ := by
    simp only [updateSnapshotStatus, hcur, hrow2, if_true]
    rfl
  have happly : ∀ r : SnapshotRow, applySnapshotUpd (some .failed) none (some e) r =
      { r with status := .failed, failureReason := some e } := by
    intro r
    simp only [applySnapshotUpd]
    rw [if_pos hne]
  have hmap : s2.committed.map (fun r =>
        if r.id == snapshotId then applySnapshotUpd (some .failed) none (some e) r else r) =
      s2.committed.map (fun r =>
        if r.id == snapshotId then { r with status := .failed, failureReason := some e }
        else r) := by
    apply List.map_congr_left
    intro r _
    by_cases h : (r.id == snapshotId) = true
    · rw [if_pos h, if_pos h, happly]
    · rw [if_neg h, if_neg h]
  refine ⟨by rw [hbranch], by rw [hbranch, hupd], by rw [hbranch, hupd]; exact hmap, ?_⟩
  intro r hr hid
  rw [hbranch, hupd, hmap] at hr
  rcases List.mem_map.mp hr with ⟨r0, -, rfl⟩
  by_cases h : (r0.id == snapshotId) = true
  · rw [if_pos h]
    exact ⟨rfl, rfl⟩
  · rw [if_neg h] at hid ⊢
    exact absurd (beq_iff_eq.mpr hid) h

def c10Snap : SnapshotRow := ⟨1, .queued, none, none⟩

def c10Sess : Sess := ⟨[c10Snap], none⟩

/-- The session state after the Stage-A `running` update on `c10Sess`. -/
def c10SessRun : Sess := ⟨[⟨1, .running, some .init, none⟩], none⟩

/-- Counterexample to C10 as stated: a stage raising an exception whose
`str(e)` is the empty string leaves the snapshot `failed` but with NO recorded
failure reason — `update_snapshot_status` skips falsy reasons — although the
structured failure result is still returned. -/
theorem claim10_counterexample :
    (runIngestion "snap-1" (some 1) [fun s => (s, some "")] c10Sess).1 =
      ⟨"snap-1", "failed", some ""⟩ ∧
    (runIngestion "snap-1" (some 1) [fun s => (s, some "")] c10Sess).2.committed =
      [⟨1, .failed, some .init, none⟩] :=
  ⟨rfl, rfl⟩

/-- Witness for C10 (amended) at a concrete run whose only stage raises. -/
theorem claim10_failure_handling_witness :
    (runIngestion "snap-1" (some 1) [fun s => (s, some "boom")] c10Sess).1 =
      ⟨"snap-1", "failed", some "boom"⟩ :=
  (claim10_failure_handling "snap-1" 1 [fun s => (s, some "boom")] c10Sess c10SessRun
    "boom" rfl rfl rfl (by decide)).1
